import Mathlib

/-!
# SM5703 fuel-gauge driver: shallow embedding

Source: `drivers/battery/sm5703_fuelgauge.c`.

Conventions of the embedding.

* A C `int` / `unsigned int` value is a Lean `Int`; `/` of C is `Int.tdiv`
  (truncation toward zero).  All quantities of the driver come from 16-bit
  register words and small configuration constants, so the arithmetic is
  carried out in the integers.
* The result of `sm5703_fg_i2c_read_word` is an input of the function that
  performs the read: a negative number is a transport error, a non-negative
  number is the 16-bit word that was read.  Bit operations on a successfully
  read word are carried out on `ret.toNat`.
* Register writes, `msleep`, the wake lock and the deferred work are recorded,
  in program order, in the `trace` of the driver instance.
* A division whose divisor is zero has no defined result in C: the function
  that contains it returns `none` there.
* The constants of the headers that are not part of the source file
  (`sm5703_fuelgauge.h`, `sm5703_fuelgauge_impl.h`, `power_supply.h`,
  `errno.h`) are the fields of `Hdr`; every statement holds for all of them.
* `board_fuelgauge_init`, logging and locking have no effect on the modelled
  state.
-/

namespace SM5703

/-- Constants of the header files, which are not part of the source file. -/
structure Hdr where
  SM5703_REG_CNTL : Nat
  SM5703_REG_INTFG_MASK : Nat
  SM5703_REG_PARAM_CTRL : Nat
  SM5703_REG_RCE0 : Nat
  SM5703_REG_DTCD : Nat
  SM5703_REG_RS : Nat
  SM5703_REG_VIT_PERIOD : Nat
  SM5703_REG_TABLE_START : Nat
  SM5703_REG_RS_MIX_FACTOR : Nat
  SM5703_REG_RS_MAX : Nat
  SM5703_REG_RS_MIN : Nat
  SM5703_REG_MIX_RATE : Nat
  SM5703_REG_MIX_INIT_BLANK : Nat
  SM5703_REG_VOLT_CAL : Nat
  SM5703_REG_CURR_CAL : Nat
  SM5703_REG_TOPOFFSOC : Nat
  SM5703_REG_IOCV_MAN : Nat
  SM5703_REG_V_ALARM : Nat
  SM5703_REG_SOC_ALARM : Nat
  SM5703_FG_PARAM_UNLOCK_CODE : Nat
  SM5703_FG_PARAM_LOCK_CODE : Nat
  SM5703_FG_TABLE_LEN : Nat
  DISABLE_RE_INIT : Int
  ENABLE_MIX_MODE : Nat
  ENABLE_TEMP_MEASURE : Nat
  ENABLE_TOPOFF_SOC : Nat
  ENABLE_MANUAL_OCV : Nat
  ENABLE_L_SOC_INT : Nat
  ENABLE_L_VOL_INT : Nat
  POWER_SUPPLY_HEALTH_GOOD : Int
  POWER_SUPPLY_STATUS_FULL : Int
  POWER_SUPPLY_STATUS_CHARGING : Int
  POWER_SUPPLY_TYPE_BATTERY : Int
  SEC_BATTEY_VOLTAGE_AVERAGE : Int
  SEC_BATTEY_VOLTAGE_OCV : Int
  SEC_FUELGAUGE_CAPACITY_TYPE_RESET : Int
  SEC_FUELGAUGE_CAPACITY_TYPE_RAW : Int
  SEC_FUELGAUGE_CAPACITY_TYPE_SCALE : Nat
  SEC_FUELGAUGE_CAPACITY_TYPE_DYNAMIC_SCALE : Nat
  SEC_FUELGAUGE_CAPACITY_TYPE_ATOMIC : Nat
  SEC_FUELGAUGE_CAPACITY_TYPE_SKIP_ABNORMAL : Nat
  EINVAL : Int
  ENODATA : Int

/-- The `enum power_supply_property` values the driver distinguishes; every
other value of the enumeration is `OTHER n`. -/
inductive Psp where
  | STATUS
  | HEALTH
  | PRESENT
  | ONLINE
  | VOLTAGE_NOW
  | VOLTAGE_AVG
  | CURRENT_NOW
  | CURRENT_AVG
  | CHARGE_FULL
  | ENERGY_NOW
  | ENERGY_FULL_DESIGN
  | CAPACITY
  | TEMP
  | TEMP_AMBIENT
  | OTHER (n : Nat)
  deriving DecidableEq, Repr

/-- Effects of the driver on its environment, in program order. -/
inductive Ev where
  | write (reg : Nat) (data : Nat)
  | msleep (ms : Nat)
  | wake_lock
  | wake_unlock
  | schedule_work
  deriving DecidableEq, Repr

/-- The fields of `fuelgauge->info` the driver uses (`struct sec_fg_info`). -/
structure Info where
  batt_soc : Int
  batt_voltage : Int
  batt_avgvoltage : Int
  batt_ocv : Int
  batt_current : Int
  batt_avgcurrent : Int
  temperature : Int
  is_FG_initialised : Int
  battery_table : Nat → Nat → Int
  rce_value : Nat → Int
  dtcd_value : Int
  rs_value : Nat → Int
  vit_period : Int
  mix_value : Nat → Int
  enable_topoff_soc : Int
  topoff_soc : Int
  volt_cal : Int
  curr_cal : Int
  temp_std : Int
  temp_offset : Int
  temp_offset_cal : Int
  charge_offset_cal : Int
  soc_alert_flag : Bool
  volt_alert_flag : Bool
  flag_full_charge : Int
  flag_chg_status : Int
  irq_ctrl : Int

/-- The fields of `fuelgauge->pdata` the driver uses. -/
structure Pdata where
  capacity_min : Int
  capacity_max : Int
  capacity_max_margin : Int
  capacity_calculation_type : Nat
  fuel_alert_soc : Int
  repeated_fuelalert : Bool

/-- The driver instance (`struct sec_fuelgauge_info`) together with the trace
of its effects. -/
structure Fuelgauge where
  info : Info
  pdata : Pdata
  capacity_old : Int
  capacity_max : Int
  initial_update_of_soc : Bool
  is_charging : Bool
  cable_type : Int
  is_fuel_alerted : Bool
  trace : List Ev

/-- Results of the register reads of one `sm5703_fg_init` call. -/
structure InitReads where
  device_id : Int
  op_status : Int
  vbat : Int
  temp : Int

/-- Results of the register reads of one `fg_get_soc` call; `value_intval` is
the content of the local `value`, which `fg_get_soc` reads without having
written it. -/
structure SocReads where
  op_status : Int
  cntl : Int
  reinit : InitReads
  value_intval : Int
  temp : Int
  ocv : Int
  soc : Int

/-- Inputs of one property call: the charger status obtained through
`psy_do_property`, up to two single-register reads, the reads of a SOC read
and the reads of a chip reset. -/
structure Reads where
  chg_status : Int
  w1 : Int
  w2 : Int
  soc : SocReads
  init : InitReads

/-- The bus write `sm5703_fg_i2c_write_word`: the address is a `uint8_t`, the
data a `uint16_t`. -/
def sm5703_fg_i2c_write_word (fg : Fuelgauge) (reg_addr : Nat) (data : Int) : Fuelgauge :=
  { fg with trace := fg.trace ++ [Ev.write (reg_addr % 256) (data % 65536).toNat] }

/-- The call `msleep(ms)`. -/
def msleep (fg : Fuelgauge) (ms : Nat) : Fuelgauge :=
  { fg with trace := fg.trace ++ [Ev.msleep ms] }

/-- The call `wake_unlock(&fuelgauge->fuel_alert_wake_lock)`. -/
def wake_unlock (fg : Fuelgauge) : Fuelgauge :=
  { fg with trace := fg.trace ++ [Ev.wake_unlock] }

/-- The OCV reader `fg_get_ocv`; `ret` is the result of reading `SM5703_REG_OCV`. -/
def fg_get_ocv (fg : Fuelgauge) (ret : Int) : Int × Fuelgauge :=
  let ocv : Int :=
    if ret < 0 then 4000
    else
      let ocv : Nat := ((ret.toNat &&& 0x0700) >>> 8) * 1000
      let ocv : Nat := ocv + ((ret.toNat &&& 0x00ff) * 1000) / 256
      (ocv : Int)
  (ocv, { fg with info := { fg.info with batt_ocv := ocv } })

/-- The voltage reader `fg_get_vbat`; `ret` is the result of reading
`SM5703_REG_VOLTAGE`. -/
def fg_get_vbat (fg : Fuelgauge) (ret : Int) : Int × Fuelgauge :=
  let vbat : Int :=
    if ret < 0 then 4000
    else
      let vbat : Nat := ((ret.toNat &&& 0x0700) >>> 8) * 1000
      let vbat : Nat := vbat + ((ret.toNat &&& 0x00ff) * 1000) / 256
      (vbat : Int)
  (vbat, { fg with info := { fg.info with
    batt_voltage := vbat
    batt_avgvoltage := (fg.info.batt_avgvoltage + 4 * vbat).tdiv 5 } })

/-- The current reader `fg_get_curr`; `ret` is the result of reading
`SM5703_REG_CURRENT`. -/
def fg_get_curr (fg : Fuelgauge) (ret : Int) : Int × Fuelgauge :=
  let curr : Int :=
    if ret < 0 then 0
    else
      let curr : Nat := ((ret.toNat &&& 0x0700) >>> 8) * 1000
      let curr : Nat := curr + ((ret.toNat &&& 0x00ff) * 1000) / 256
      if ret.toNat &&& 0x8000 ≠ 0 then (curr : Int) * -1 else (curr : Int)
  (curr, { fg with info := { fg.info with
    batt_current := curr
    batt_avgcurrent := (fg.info.batt_avgcurrent + 4 * curr).tdiv 5 } })

/-- The temperature reader `fg_get_temp`; `ret` is the result of reading
`SM5703_REG_TEMPERATURE`. -/
def fg_get_temp (fg : Fuelgauge) (ret : Int) : Int × Fuelgauge :=
  let temp : Int :=
    if ret < 0 then 0
    else
      let temp : Nat := ((ret.toNat &&& 0x7F00) >>> 8) * 10
      let temp : Nat := temp + ((ret.toNat &&& 0x00ff) * 10) / 256
      if ret.toNat &&& 0x8000 ≠ 0 then (temp : Int) * -1 else (temp : Int)
  (temp, { fg with info := { fg.info with temperature := temp } })

/-- The test `sm5703_fg_check_reg_init_need`; `ret` is the result of reading
`SM5703_REG_FG_OP_STATUS`, and `ret & 0x00FF` of a two's-complement `int` is
`ret % 256`. -/
def sm5703_fg_check_reg_init_need (h : Hdr) (ret : Int) : Bool :=
  if ret % 256 = h.DISABLE_RE_INIT then false else true

/-- The bit pattern of a C `int` as an unsigned 32-bit number. -/
def bits32 (x : Int) : Nat := (x % 4294967296).toNat

/-- The table writes of `sm5703_fg_reg_init`: row `i` of the battery table,
entries `0 .. SM5703_FG_TABLE_LEN`, to `table_reg + j` where `table_reg` is the
`uint8_t` value `SM5703_REG_TABLE_START + (i<<4)`. -/
def sm5703_fg_reg_init_table_row (h : Hdr) (fg : Fuelgauge) (i : Nat) : Fuelgauge :=
  let table_reg : Nat := (h.SM5703_REG_TABLE_START + (i <<< 4)) % 256
  (List.range (h.SM5703_FG_TABLE_LEN + 1)).foldl
    (fun fg j => sm5703_fg_i2c_write_word fg (table_reg + j) (fg.info.battery_table i j)) fg

/-- The register initialisation `sm5703_fg_reg_init`. -/
def sm5703_fg_reg_init (h : Hdr) (fg : Fuelgauge) (need_manual_OCV_write : Bool) :
    Bool × Fuelgauge :=
  let fg := sm5703_fg_i2c_write_word fg h.SM5703_REG_PARAM_CTRL h.SM5703_FG_PARAM_UNLOCK_CODE
  let fg := (List.range 3).foldl
    (fun fg i => sm5703_fg_i2c_write_word fg (h.SM5703_REG_RCE0 + i) (fg.info.rce_value i)) fg
  let fg := sm5703_fg_i2c_write_word fg h.SM5703_REG_DTCD fg.info.dtcd_value
  let fg := sm5703_fg_i2c_write_word fg h.SM5703_REG_RS (fg.info.rs_value 0)
  let fg := sm5703_fg_i2c_write_word fg h.SM5703_REG_VIT_PERIOD fg.info.vit_period
  let fg := sm5703_fg_i2c_write_word fg h.SM5703_REG_PARAM_CTRL
    ((h.SM5703_FG_PARAM_UNLOCK_CODE ||| h.SM5703_FG_TABLE_LEN : Nat) : Int)
  let fg := (List.range 3).foldl (fun fg i => sm5703_fg_reg_init_table_row h fg i) fg
  let fg := sm5703_fg_i2c_write_word fg h.SM5703_REG_RS_MIX_FACTOR (fg.info.rs_value 1)
  let fg := sm5703_fg_i2c_write_word fg h.SM5703_REG_RS_MAX (fg.info.rs_value 2)
  let fg := sm5703_fg_i2c_write_word fg h.SM5703_REG_RS_MIN (fg.info.rs_value 3)
  let fg := sm5703_fg_i2c_write_word fg h.SM5703_REG_MIX_RATE (fg.info.mix_value 0)
  let fg := sm5703_fg_i2c_write_word fg h.SM5703_REG_MIX_INIT_BLANK (fg.info.mix_value 1)
  let fg := sm5703_fg_i2c_write_word fg h.SM5703_REG_VOLT_CAL fg.info.volt_cal
  let fg := sm5703_fg_i2c_write_word fg h.SM5703_REG_CURR_CAL fg.info.curr_cal
  let fg := sm5703_fg_i2c_write_word fg h.SM5703_REG_TOPOFFSOC fg.info.topoff_soc
  let value : Nat := h.ENABLE_MIX_MODE ||| h.ENABLE_TEMP_MEASURE |||
    (bits32 (fg.info.enable_topoff_soc * 8192) &&& h.ENABLE_TOPOFF_SOC)
  let value : Nat := if need_manual_OCV_write then value ||| h.ENABLE_MANUAL_OCV else value
  let fg := sm5703_fg_i2c_write_word fg h.SM5703_REG_CNTL value
  let value : Nat := h.SM5703_FG_PARAM_LOCK_CODE ||| h.SM5703_FG_TABLE_LEN
  let fg := sm5703_fg_i2c_write_word fg h.SM5703_REG_PARAM_CTRL value
  let fg :=
    if need_manual_OCV_write then
      sm5703_fg_i2c_write_word fg h.SM5703_REG_IOCV_MAN ((fg.info.batt_ocv * 256).tdiv 125)
    else fg
  (true, fg)

/-- The chip initialisation `sm5703_fg_init`. -/
def sm5703_fg_init (h : Hdr) (fg : Fuelgauge) (need_manual_OCV_write : Bool)
    (rd : InitReads) : Bool × Fuelgauge :=
  let fg := { fg with info := { fg.info with is_FG_initialised := 0 } }
  if rd.device_id < 0 then (false, fg)
  else
    let fg :=
      if sm5703_fg_check_reg_init_need h rd.op_status then
        (sm5703_fg_reg_init h fg need_manual_OCV_write).2
      else
        sm5703_fg_i2c_write_word fg h.SM5703_REG_PARAM_CTRL
          ((h.SM5703_FG_PARAM_LOCK_CODE ||| h.SM5703_FG_TABLE_LEN : Nat) : Int)
    let r := fg_get_vbat fg rd.vbat
    let fg := { r.2 with info := { r.2.info with batt_avgvoltage := r.1 } }
    let r := fg_get_temp fg rd.temp
    let fg := { r.2 with info := { r.2.info with temperature := r.1 } }
    let fg := { fg with info := { fg.info with is_FG_initialised := 1 } }
    (true, fg)

/-- The SOC reader `fg_get_soc`.  The division by `temp_offset` has no result
when `temp_offset` is zero. -/
def fg_get_soc (h : Hdr) (fg : Fuelgauge) (rd : SocReads) : Option (Int × Fuelgauge) :=
  let fg :=
    if rd.op_status % 256 ≠ h.DISABLE_RE_INIT ∧ fg.info.is_FG_initialised = 1 then
      if rd.cntl = 0x2008 then
        let fg := sm5703_fg_i2c_write_word fg 0x90 0x0008
        let fg := msleep fg 200
        (sm5703_fg_init h fg true rd.reinit).2
      else fg
    else fg
  let ta_exist : Bool := (rd.value_intval == h.POWER_SUPPLY_HEALTH_GOOD) || fg.is_charging
  let curr_cal : Int :=
    if ta_exist then fg.info.curr_cal + fg.info.charge_offset_cal * 256
    else fg.info.curr_cal
  let fg := (fg_get_temp fg rd.temp).2
  let fg := (fg_get_ocv fg rd.ocv).2
  if fg.info.temp_offset = 0 then none
  else
    let temp_cal_fact : Int := fg.info.temp_std - fg.info.temperature.tdiv 10
    let temp_cal_fact : Int := temp_cal_fact.tdiv fg.info.temp_offset
    let temp_cal_fact : Int := temp_cal_fact * fg.info.temp_offset_cal
    let curr_cal : Int := curr_cal + temp_cal_fact * 256
    let fg := sm5703_fg_i2c_write_word fg h.SM5703_REG_CURR_CAL curr_cal
    let soc : Int :=
      if rd.soc < 0 then 500
      else
        let soc : Nat := ((rd.soc.toNat &&& 0xff00) >>> 8) * 10
        let soc : Nat := soc + ((rd.soc.toNat &&& 0x00ff) * 10) / 256
        (soc : Int)
    some (soc, fg)

/-- The alert initialisation `sec_hal_fg_fuelalert_init`; the results of its
two register reads are not used. -/
def sec_hal_fg_fuelalert_init (h : Hdr) (fg : Fuelgauge) (_soc : Int) : Bool × Fuelgauge :=
  let fg := sm5703_fg_i2c_write_word fg h.SM5703_REG_INTFG_MASK 0x0000
  let ret : Nat := h.ENABLE_L_SOC_INT ||| h.ENABLE_L_VOL_INT
  let fg := sm5703_fg_i2c_write_word fg h.SM5703_REG_INTFG_MASK ret
  let fg := { fg with info := { fg.info with irq_ctrl := ret } }
  let fg := sm5703_fg_i2c_write_word fg h.SM5703_REG_V_ALARM 0x0300
  let fg := sm5703_fg_i2c_write_word fg h.SM5703_REG_SOC_ALARM 0x0100
  let fg := { fg with info := { fg.info with soc_alert_flag := false } }
  (true, fg)

/-- The rescaling `sec_fg_get_scaled_capacity` (capacity in 0.1% units); the
quotient is evaluated only when `val` is not below `capacity_min`, and has no
result when the divisor is zero. -/
def sec_fg_get_scaled_capacity (fg : Fuelgauge) (val : Int) : Option Int :=
  if val < fg.pdata.capacity_min then some 0
  else if fg.capacity_max - fg.pdata.capacity_min = 0 then none
  else some (((val - fg.pdata.capacity_min) * 1000).tdiv
    (fg.capacity_max - fg.pdata.capacity_min))

/-- The anti-regression step `sec_fg_get_atomic_capacity` (capacity in whole
percent). -/
def sec_fg_get_atomic_capacity (h : Hdr) (fg : Fuelgauge) (val : Int) : Int × Fuelgauge :=
  let val : Int :=
    if fg.pdata.capacity_calculation_type &&& h.SEC_FUELGAUGE_CAPACITY_TYPE_ATOMIC ≠ 0 then
      if fg.capacity_old < val then fg.capacity_old + 1
      else if fg.capacity_old > val then fg.capacity_old - 1
      else val
    else val
  let val : Int :=
    if fg.pdata.capacity_calculation_type &&&
        h.SEC_FUELGAUGE_CAPACITY_TYPE_SKIP_ABNORMAL ≠ 0 then
      if !fg.is_charging && decide (fg.capacity_old < val) then fg.capacity_old else val
    else val
  (val, { fg with capacity_old := val })

/-- The hardware-level getter `sec_hal_fg_get_property`: the returned triple is
the boolean result, the final `val->intval` and the driver state. -/
def sec_hal_fg_get_property (h : Hdr) (fg : Fuelgauge) (psp : Psp) (val : Int) (rd : Reads) :
    Option (Bool × Int × Fuelgauge) :=
  let fg := { fg with info := { fg.info with
    flag_full_charge := if rd.chg_status = h.POWER_SUPPLY_STATUS_FULL then 1 else 0
    flag_chg_status := if rd.chg_status = h.POWER_SUPPLY_STATUS_CHARGING then 1 else 0 } }
  match psp with
  | Psp.VOLTAGE_NOW =>
    let r := fg_get_vbat fg rd.w1
    some (true, r.1, r.2)
  | Psp.VOLTAGE_AVG =>
    if val = h.SEC_BATTEY_VOLTAGE_AVERAGE then
      let fg := (fg_get_vbat fg rd.w1).2
      some (true, fg.info.batt_avgvoltage, fg)
    else if val = h.SEC_BATTEY_VOLTAGE_OCV then
      let r := fg_get_ocv fg rd.w1
      some (true, r.1, r.2)
    else some (true, val, fg)
  | Psp.PRESENT => some (true, val, fg)
  | Psp.CURRENT_NOW =>
    let fg := (fg_get_curr fg rd.w1).2
    let fg := (fg_get_curr fg rd.w2).2
    some (true, fg.info.batt_avgcurrent, fg)
  | Psp.CURRENT_AVG =>
    let fg := (fg_get_curr fg rd.w1).2
    some (true, fg.info.batt_avgcurrent, fg)
  | Psp.CHARGE_FULL => some (true, if fg.info.batt_soc ≥ 1000 then 1 else 0, fg)
  | Psp.CAPACITY =>
    match fg_get_soc h fg rd.soc with
    | none => none
    | some (soc, fg) =>
      if val = h.SEC_FUELGAUGE_CAPACITY_TYPE_RAW then some (true, soc * 10, fg)
      else some (true, soc, fg)
  | Psp.TEMP =>
    let r := fg_get_temp fg rd.w1
    some (true, r.1, r.2)
  | Psp.TEMP_AMBIENT =>
    let r := fg_get_temp fg rd.w1
    some (true, r.1, r.2)
  | _ => some (false, val, fg)

/-- The capacity post-processing of `sm5703_fg_get_property` for a request
that is not of the RAW type: `val` is what `sec_hal_fg_get_property` stored. -/
def sm5703_fg_get_property_capacity (h : Hdr) (fg : Fuelgauge) (val : Int) :
    Option (Int × Int × Fuelgauge) :=
  let scaled : Option Int :=
    if fg.pdata.capacity_calculation_type &&&
        (h.SEC_FUELGAUGE_CAPACITY_TYPE_SCALE |||
          h.SEC_FUELGAUGE_CAPACITY_TYPE_DYNAMIC_SCALE) ≠ 0 then
      sec_fg_get_scaled_capacity fg val
    else some val
  match scaled with
  | none => none
  | some val =>
    let val : Int := if val > 1000 then 1000 else val
    let val : Int := if val < 0 then 0 else val
    let val : Int := val.tdiv 10
    let fg :=
      if decide (val > fg.pdata.fuel_alert_soc) && fg.is_fuel_alerted then
        (sec_hal_fg_fuelalert_init h (wake_unlock fg) fg.pdata.fuel_alert_soc).2
      else fg
    if fg.initial_update_of_soc then
      some (0, val, { fg with capacity_old := val, initial_update_of_soc := false })
    else if fg.pdata.capacity_calculation_type &&&
        (h.SEC_FUELGAUGE_CAPACITY_TYPE_ATOMIC |||
          h.SEC_FUELGAUGE_CAPACITY_TYPE_SKIP_ABNORMAL) ≠ 0 then
      let r := sec_fg_get_atomic_capacity h fg val
      some (0, r.1, r.2)
    else some (0, val, fg)

/-- The property getter `sm5703_fg_get_property`: the returned triple is the
return code, the final `val->intval` and the driver state. -/
def sm5703_fg_get_property (h : Hdr) (fg : Fuelgauge) (psp : Psp) (val : Int) (rd : Reads) :
    Option (Int × Int × Fuelgauge) :=
  let soc_type : Int := val
  match psp with
  | Psp.PRESENT | Psp.VOLTAGE_NOW | Psp.VOLTAGE_AVG | Psp.CURRENT_NOW | Psp.CURRENT_AVG
  | Psp.ENERGY_NOW | Psp.CAPACITY | Psp.TEMP | Psp.TEMP_AMBIENT =>
    match sec_hal_fg_get_property h fg psp val rd with
    | none => none
    | some (ok, val, fg) =>
      if !ok then some (-h.EINVAL, val, fg)
      else if psp = Psp.CAPACITY then
        if soc_type = h.SEC_FUELGAUGE_CAPACITY_TYPE_RAW then some (0, val, fg)
        else sm5703_fg_get_property_capacity h fg val
      else some (0, val, fg)
  | Psp.ENERGY_FULL_DESIGN => some (0, fg.capacity_max, fg)
  | Psp.STATUS | Psp.CHARGE_FULL => some (-h.ENODATA, val, fg)
  | _ => some (-h.EINVAL, val, fg)

/-- The dynamic-scale recomputation `sec_fg_calculate_dynamic_scale`. -/
def sec_fg_calculate_dynamic_scale (h : Hdr) (fg : Fuelgauge) (rd : Reads) :
    Option (Int × Fuelgauge) :=
  match sec_hal_fg_get_property h fg Psp.CAPACITY h.SEC_FUELGAUGE_CAPACITY_TYPE_RAW rd with
  | none => none
  | some (ok, raw_soc_val, fg) =>
    if !ok then some (-h.EINVAL, fg)
    else
      let raw_soc_val : Int := raw_soc_val.tdiv 10
      let fg :=
        if raw_soc_val < fg.pdata.capacity_max - fg.pdata.capacity_max_margin then
          { fg with capacity_max := fg.pdata.capacity_max - fg.pdata.capacity_max_margin }
        else
          { fg with capacity_max :=
              if raw_soc_val > fg.pdata.capacity_max + fg.pdata.capacity_max_margin then
                fg.pdata.capacity_max + fg.pdata.capacity_max_margin
              else raw_soc_val }
      let fg := { fg with capacity_max := (fg.capacity_max * 99).tdiv 100 }
      let fg := { fg with capacity_old := 100 }
      some (fg.capacity_max, fg)

/-- The full-charge notification `sec_hal_fg_full_charged`. -/
def sec_hal_fg_full_charged (fg : Fuelgauge) : Bool × Fuelgauge :=
  (true, { fg with info := { fg.info with flag_full_charge := 1 } })

/-- The chip reset `sec_hal_fg_reset`. -/
def sec_hal_fg_reset (h : Hdr) (fg : Fuelgauge) (rd : InitReads) : Bool × Fuelgauge :=
  let fg := sm5703_fg_i2c_write_word fg 0x90 0x0008
  let fg := msleep fg 200
  let fg := (sm5703_fg_init h fg false rd).2
  (true, fg)

/-- The hardware-level setter `sec_hal_fg_set_property`. -/
def sec_hal_fg_set_property (psp : Psp) : Bool :=
  match psp with
  | Psp.TEMP => true
  | Psp.TEMP_AMBIENT => true
  | _ => false

/-- The property setter `sm5703_fg_set_property`: the returned pair is the
return code and the driver state. -/
def sm5703_fg_set_property (h : Hdr) (fg : Fuelgauge) (psp : Psp) (val : Int) (rd : Reads) :
    Option (Int × Fuelgauge) :=
  match psp with
  | Psp.STATUS =>
    if val = h.POWER_SUPPLY_STATUS_FULL then some (0, (sec_hal_fg_full_charged fg).2)
    else some (0, fg)
  | Psp.CHARGE_FULL =>
    if val = h.POWER_SUPPLY_TYPE_BATTERY then
      if fg.pdata.capacity_calculation_type &&&
          h.SEC_FUELGAUGE_CAPACITY_TYPE_DYNAMIC_SCALE ≠ 0 then
        match sec_fg_calculate_dynamic_scale h fg rd with
        | none => none
        | some r => some (0, r.2)
      else some (0, fg)
    else some (0, fg)
  | Psp.ONLINE =>
    let fg := { fg with cable_type := val }
    if val = h.POWER_SUPPLY_TYPE_BATTERY then some (0, { fg with is_charging := false })
    else some (0, { fg with is_charging := true })
  | Psp.CAPACITY =>
    if val = h.SEC_FUELGAUGE_CAPACITY_TYPE_RESET then
      let fg := { fg with initial_update_of_soc := true }
      let r := sec_hal_fg_reset h fg rd.init
      if !r.1 then some (-h.EINVAL, r.2) else some (0, r.2)
    else if !sec_hal_fg_set_property psp then some (-h.EINVAL, fg)
    else some (0, fg)
  | Psp.TEMP | Psp.TEMP_AMBIENT =>
    if !sec_hal_fg_set_property psp then some (-h.EINVAL, fg) else some (0, fg)
  | Psp.ENERGY_FULL_DESIGN =>
    some (0, { fg with capacity_max := val, initial_update_of_soc := true })
  | _ => some (-h.EINVAL, fg)

/-- Consecutive capacity queries through `sm5703_fg_get_property`, each with
its own request value and bus inputs, with no other call in between: the list
of the values returned and the final driver state. -/
def capacity_queries (h : Hdr) (fg : Fuelgauge) : List (Int × Reads) →
    Option (List Int × Fuelgauge)
  | [] => some ([], fg)
  | q :: qs =>
    match sm5703_fg_get_property h fg Psp.CAPACITY q.1 q.2 with
    | none => none
    | some (_, v, fg) =>
      match capacity_queries h fg qs with
      | none => none
      | some (vs, fg) => some (v :: vs, fg)

/-- The driver states that calls of the property interface and dynamic-scale
recomputations reach from an initial state, in which `capacity_old` is 0 and
`initial_update_of_soc` is set. -/
inductive Reachable (h : Hdr) : Fuelgauge → Prop where
  | init (fg : Fuelgauge) (hold : fg.capacity_old = 0)
      (hinit : fg.initial_update_of_soc = true) : Reachable h fg
  | get (fg : Fuelgauge) (psp : Psp) (val : Int) (rd : Reads) (r : Int × Int × Fuelgauge)
      (hfg : Reachable h fg) (hstep : sm5703_fg_get_property h fg psp val rd = some r) :
      Reachable h r.2.2
  | set (fg : Fuelgauge) (psp : Psp) (val : Int) (rd : Reads) (r : Int × Fuelgauge)
      (hfg : Reachable h fg) (hstep : sm5703_fg_set_property h fg psp val rd = some r) :
      Reachable h r.2
  | scale (fg : Fuelgauge) (rd : Reads) (r : Int × Fuelgauge)
      (hfg : Reachable h fg) (hstep : sec_fg_calculate_dynamic_scale h fg rd = some r) :
      Reachable h r.2

/-- The part of the driver state that the bus-level functions leave unchanged:
the platform data, the capacity fields, the charging flags and `temp_offset`. -/
def capacity_state (fg : Fuelgauge) : Pdata × Int × Int × Bool × Bool × Bool × Int × Int :=
  (fg.pdata, fg.capacity_old, fg.capacity_max, fg.initial_update_of_soc, fg.is_charging,
    fg.is_fuel_alerted, fg.cable_type, fg.info.temp_offset)

/-- The value `fg_get_soc` computes from the result `ret` of reading
`SM5703_REG_SOC`. -/
def fg_get_soc_value (ret : Int) : Int :=
  if ret < 0 then 500
  else
    let soc : Nat := ((ret.toNat &&& 0xff00) >>> 8) * 10
    let soc : Nat := soc + ((ret.toNat &&& 0x00ff) * 10) / 256
    (soc : Int)

/-- The clamp to `[0, 1000]` and the truncation to whole percent that
`sm5703_fg_get_property` applies to a capacity. -/
def clamp_percent (val : Int) : Int :=
  let val : Int := if val > 1000 then 1000 else val
  let val : Int := if val < 0 then 0 else val
  val.tdiv 10

/-- The wake-unlock check that `sm5703_fg_get_property` performs on a capacity. -/
def alert_step (h : Hdr) (fg : Fuelgauge) (val : Int) : Fuelgauge :=
  if decide (val > fg.pdata.fuel_alert_soc) && fg.is_fuel_alerted then
    (sec_hal_fg_fuelalert_init h (wake_unlock fg) fg.pdata.fuel_alert_soc).2
  else fg

/-- Sample values of the header constants, used to evaluate the model on
concrete inputs; no statement depends on them. -/
def hdr_sample : Hdr where
  SM5703_REG_CNTL := 0x01
  SM5703_REG_INTFG_MASK := 0x03
  SM5703_REG_PARAM_CTRL := 0x13
  SM5703_REG_RCE0 := 0x20
  SM5703_REG_DTCD := 0x23
  SM5703_REG_RS := 0x24
  SM5703_REG_VIT_PERIOD := 0x1A
  SM5703_REG_TABLE_START := 0xA0
  SM5703_REG_RS_MIX_FACTOR := 0x25
  SM5703_REG_RS_MAX := 0x26
  SM5703_REG_RS_MIN := 0x27
  SM5703_REG_MIX_RATE := 0x1B
  SM5703_REG_MIX_INIT_BLANK := 0x1C
  SM5703_REG_VOLT_CAL := 0x50
  SM5703_REG_CURR_CAL := 0x51
  SM5703_REG_TOPOFFSOC := 0x12
  SM5703_REG_IOCV_MAN := 0x0E
  SM5703_REG_V_ALARM := 0x0C
  SM5703_REG_SOC_ALARM := 0x0D
  SM5703_FG_PARAM_UNLOCK_CODE := 0x3700
  SM5703_FG_PARAM_LOCK_CODE := 0x0000
  SM5703_FG_TABLE_LEN := 0xF
  DISABLE_RE_INIT := 0x0007
  ENABLE_MIX_MODE := 0x8000
  ENABLE_TEMP_MEASURE := 0x4000
  ENABLE_TOPOFF_SOC := 0x2000
  ENABLE_MANUAL_OCV := 0x0400
  ENABLE_L_SOC_INT := 0x0008
  ENABLE_L_VOL_INT := 0x0001
  POWER_SUPPLY_HEALTH_GOOD := 1
  POWER_SUPPLY_STATUS_FULL := 4
  POWER_SUPPLY_STATUS_CHARGING := 1
  POWER_SUPPLY_TYPE_BATTERY := 1
  SEC_BATTEY_VOLTAGE_AVERAGE := 0
  SEC_BATTEY_VOLTAGE_OCV := 1
  SEC_FUELGAUGE_CAPACITY_TYPE_RESET := -1
  SEC_FUELGAUGE_CAPACITY_TYPE_RAW := 1
  SEC_FUELGAUGE_CAPACITY_TYPE_SCALE := 2
  SEC_FUELGAUGE_CAPACITY_TYPE_DYNAMIC_SCALE := 4
  SEC_FUELGAUGE_CAPACITY_TYPE_ATOMIC := 8
  SEC_FUELGAUGE_CAPACITY_TYPE_SKIP_ABNORMAL := 16
  EINVAL := 22
  ENODATA := 61

/-- A sample calibration record: only the temperature-compensation constants
are non-zero. -/
def info_sample : Info where
  batt_soc := 0
  batt_voltage := 0
  batt_avgvoltage := 0
  batt_ocv := 0
  batt_current := 0
  batt_avgcurrent := 0
  temperature := 250
  is_FG_initialised := 1
  battery_table := fun _ _ => 0
  rce_value := fun _ => 0
  dtcd_value := 0
  rs_value := fun _ => 0
  vit_period := 0
  mix_value := fun _ => 0
  enable_topoff_soc := 0
  topoff_soc := 0
  volt_cal := 0
  curr_cal := 0x8080
  temp_std := 25
  temp_offset := 10
  temp_offset_cal := 1
  charge_offset_cal := 0
  soc_alert_flag := false
  volt_alert_flag := false
  flag_full_charge := 0
  flag_chg_status := 0
  irq_ctrl := 0

/-- A sample driver instance right after probe: dynamic scaling, ATOMIC and
SKIP_ABNORMAL modes enabled, `capacity_max` 950 with margin 50, not charging. -/
def fg_sample : Fuelgauge where
  info := info_sample
  pdata :=
    { capacity_min := 0
      capacity_max := 950
      capacity_max_margin := 50
      capacity_calculation_type := 28
      fuel_alert_soc := 1
      repeated_fuelalert := false }
  capacity_old := 0
  capacity_max := 950
  initial_update_of_soc := true
  is_charging := false
  cable_type := 1
  is_fuel_alerted := false
  trace := []

/-- Sample bus inputs: the chip reports "re-init disabled", temperature word
`0x1900` (25.0 degrees), OCV `0x0400` and the SOC read result `soc`. -/
def reads_sample (soc : Int) : Reads where
  chg_status := 0
  w1 := 0
  w2 := 0
  soc :=
    { op_status := 0x0007
      cntl := 0
      reinit := { device_id := 0, op_status := 0x0007, vbat := 0, temp := 0 }
      value_intval := 0
      temp := 0x1900
      ocv := 0x0400
      soc := soc }
  init := { device_id := 0, op_status := 0x0007, vbat := 0, temp := 0 }

/-- A driver instance whose `capacity_max` (50) lies below `capacity_min` (100),
as the energy-full-design set path can produce. -/
def fg_inverted : Fuelgauge :=
  { fg_sample with
    capacity_max := 50
    pdata := { fg_sample.pdata with capacity_min := 100 } }

/-- The smoothing update of `fg_get_vbat` (`batt_avgvoltage`) and `fg_get_curr`
(`batt_avgcurrent`): `(avg + 4 * new) / 5` with C division. -/
def smoothing_update (avg new : Int) : Int := (avg + 4 * new).tdiv 5

/-- The hardware-level initialisation `sec_hal_fg_init`.  The configuration
load it starts with (`sm5703_fg_parse_dt` or the platform data) only fills the
calibration fields: `fg.info` holds the record as loaded.  The result of
`sm5703_fg_init` is not used. -/
def sec_hal_fg_init (h : Hdr) (fg : Fuelgauge) (rd : InitReads) : Bool × Fuelgauge :=
  let fg := (sm5703_fg_init h fg false rd).2
  let fg := { fg with info := { fg.info with temperature := 250 } }
  (true, fg)

/-- The hardware-level suspend hook `sec_hal_fg_suspend`. -/
def sec_hal_fg_suspend (_fg : Fuelgauge) : Bool := true

/-- The hardware-level resume hook `sec_hal_fg_resume`. -/
def sec_hal_fg_resume (_fg : Fuelgauge) : Bool := true

/-- The power-management hook `sm5703_fuelgauge_suspend`. -/
def sm5703_fuelgauge_suspend (fg : Fuelgauge) : Int × Fuelgauge :=
  if !sec_hal_fg_suspend fg then (0, fg) else (0, fg)

/-- The power-management hook `sm5703_fuelgauge_resume`. -/
def sm5703_fuelgauge_resume (fg : Fuelgauge) : Int × Fuelgauge :=
  if !sec_hal_fg_resume fg then (0, fg) else (0, fg)

/-- The call `wake_lock(&fuelgauge->fuel_alert_wake_lock)`. -/
def wake_lock (fg : Fuelgauge) : Fuelgauge :=
  { fg with trace := fg.trace ++ [Ev.wake_lock] }

/-- The call `schedule_delayed_work(&fuelgauge->isr_work, 0)`. -/
def schedule_delayed_work (fg : Fuelgauge) : Fuelgauge :=
  { fg with trace := fg.trace ++ [Ev.schedule_work] }

/-- The alert test `sec_hal_fg_is_fuelalerted`. -/
def sec_hal_fg_is_fuelalerted (_fg : Fuelgauge) : Bool := false

/-- The alert latch `sec_hal_fg_fuelalert_process`; `ret` is the result of
reading `SM5703_REG_INTFG`, and `ret & mask` is taken on the bit pattern of the
`int`. -/
def sec_hal_fg_fuelalert_process (h : Hdr) (fg : Fuelgauge) (ret : Int)
    (_is_fuel_alerted : Bool) : Bool × Fuelgauge :=
  let fg :=
    if bits32 ret &&& h.ENABLE_L_SOC_INT ≠ 0 then
      { fg with info := { fg.info with soc_alert_flag := true } }
    else fg
  let fg :=
    if bits32 ret &&& h.ENABLE_L_VOL_INT ≠ 0 then
      { fg with info := { fg.info with volt_alert_flag := true } }
    else fg
  (true, fg)

/-- The deferred work `sec_fg_isr_work`; the optional platform callback
`pdata->fuelalert_process` has no effect on the modelled state. -/
def sec_fg_isr_work (h : Hdr) (fg : Fuelgauge) (intfg : Int) : Fuelgauge :=
  (sec_hal_fg_fuelalert_process h fg intfg fg.is_fuel_alerted).2

/-- The interrupt thread `sec_fg_irq_thread`. -/
def sec_fg_irq_thread (_h : Hdr) (fg : Fuelgauge) : Fuelgauge :=
  if fg.pdata.fuel_alert_soc ≥ 0 then
    let fuel_alerted : Bool := sec_hal_fg_is_fuelalerted fg
    if fuel_alerted = fg.is_fuel_alerted then
      if !fg.pdata.repeated_fuelalert then fg
      else
        let fg := if fuel_alerted then wake_lock fg else wake_unlock fg
        let fg := schedule_delayed_work fg
        { fg with is_fuel_alerted := fuel_alerted }
    else
      let fg := if fuel_alerted then wake_lock fg else wake_unlock fg
      let fg := schedule_delayed_work fg
      { fg with is_fuel_alerted := fuel_alerted }
  else fg

/-- One interrupt notification: `sec_fg_irq_thread`, followed by the deferred
work `sec_fg_isr_work` exactly when the thread scheduled it; `intfg` is the
result of the work's read of `SM5703_REG_INTFG`. -/
def fuel_alert_notification (h : Hdr) (fg : Fuelgauge) (intfg : Int) : Fuelgauge :=
  let fg1 := sec_fg_irq_thread h fg
  if Ev.schedule_work ∈ fg1.trace.drop fg.trace.length then sec_fg_isr_work h fg1 intfg
  else fg1

/-- The driver part of `sm5703_fuelgauge_probe`, on the path where allocation,
GPIO set-up, `power_supply_register`, the interrupt request and
`sm5703_create_attrs` succeed: `rd_init` are the reads of `sec_hal_fg_init`,
`rd_raw` those of the raw SOC query and `rd_scale` those of the dynamic-scale
recomputation.  The result is the return code and the driver instance. -/
def sm5703_fuelgauge_probe (h : Hdr) (fg : Fuelgauge) (rd_init : InitReads)
    (rd_raw rd_scale : Reads) : Option (Int × Fuelgauge) :=
  let r := sec_hal_fg_init h fg rd_init
  if !r.1 then some (0, r.2)
  else
    let fg := { r.2 with capacity_max := r.2.pdata.capacity_max }
    match sec_hal_fg_get_property h fg Psp.CAPACITY h.SEC_FUELGAUGE_CAPACITY_TYPE_RAW rd_raw with
    | none => none
    | some (_, raw_soc_val, fg) =>
      let raw_soc_val : Int := raw_soc_val.tdiv 10
      let scaled : Option Fuelgauge :=
        if raw_soc_val > fg.pdata.capacity_max then
          (sec_fg_calculate_dynamic_scale h fg rd_scale).map Prod.snd
        else some fg
      match scaled with
      | none => none
      | some fg =>
        let fg := { fg with is_fuel_alerted := false }
        let fg :=
          if fg.pdata.fuel_alert_soc ≥ 0 then
            (sec_hal_fg_fuelalert_init h fg fg.pdata.fuel_alert_soc).2
          else fg
        let fg := { fg with initial_update_of_soc := true }
        some (0, fg)

/-- A calibration record all of whose fields are zero. -/
def info_zero : Info where
  batt_soc := 0
  batt_voltage := 0
  batt_avgvoltage := 0
  batt_ocv := 0
  batt_current := 0
  batt_avgcurrent := 0
  temperature := 0
  is_FG_initialised := 0
  battery_table := fun _ _ => 0
  rce_value := fun _ => 0
  dtcd_value := 0
  rs_value := fun _ => 0
  vit_period := 0
  mix_value := fun _ => 0
  enable_topoff_soc := 0
  topoff_soc := 0
  volt_cal := 0
  curr_cal := 0
  temp_std := 0
  temp_offset := 0
  temp_offset_cal := 0
  charge_offset_cal := 0
  soc_alert_flag := false
  volt_alert_flag := false
  flag_full_charge := 0
  flag_chg_status := 0
  irq_ctrl := 0

/-- The sample driver instance with the all-zero calibration record. -/
def fg_zero : Fuelgauge := { fg_sample with info := info_zero }

/-- Sample reads of an initialisation whose device-ID read fails with -5. -/
def init_reads_failed : InitReads :=
  { device_id := -5, op_status := 0x0007, vbat := 0x0400, temp := 0x1900 }

/-- The sample driver instance with `repeated_fuelalert` set. -/
def fg_repeat : Fuelgauge :=
  { fg_sample with pdata := { fg_sample.pdata with repeated_fuelalert := true } }

/-- The sample driver instance with a stored OCV of 4000 mV. -/
def fg_ocv : Fuelgauge :=
  { fg_sample with info := { info_sample with batt_ocv := 4000 } }

/-- Sample reads of a SOC read in the abnormal state: the operation status is
not "re-init disabled" and the control register reads `0x2008`; the device-ID
read of the re-run succeeds and its operation-status read asks for the register
initialisation. -/
def reads_abnormal : SocReads :=
  { op_status := 0
    cntl := 0x2008
    reinit := { device_id := 0x0001, op_status := 0, vbat := 0x0400, temp := 0x1900 }
    value_intval := 0
    temp := 0x1900
    ocv := 0x0400
    soc := 0x3200 }

/-- The calibration fields of the record that `fg_get_soc` combines into the
current-calibration word. -/
def calibration_state (fg : Fuelgauge) : Int × Int × Int × Int × Int :=
  (fg.info.curr_cal, fg.info.charge_offset_cal, fg.info.temp_std, fg.info.temp_offset,
    fg.info.temp_offset_cal)

/-- The word `fg_get_soc` hands to the write of the current-calibration
register (lines 418 to 436), as a function of the state `fg` in which the
calibration step starts; `rd.value_intval` is the content of the local
`value`, which `fg_get_soc` never assigns. -/
def fg_get_soc_curr_cal (h : Hdr) (fg : Fuelgauge) (rd : SocReads) : Int :=
  let ta_exist : Bool := (rd.value_intval == h.POWER_SUPPLY_HEALTH_GOOD) || fg.is_charging
  let curr_cal : Int :=
    if ta_exist then fg.info.curr_cal + fg.info.charge_offset_cal * 256
    else fg.info.curr_cal
  let temp_cal_fact : Int := fg.info.temp_std - (fg_get_temp fg rd.temp).1.tdiv 10
  let temp_cal_fact : Int := temp_cal_fact.tdiv fg.info.temp_offset
  let temp_cal_fact : Int := temp_cal_fact * fg.info.temp_offset_cal
  curr_cal + temp_cal_fact * 256

/-- A driver state with a non-zero charge offset that is not charging. -/
def fg_charge : Fuelgauge :=
  { fg_sample with info := { info_sample with charge_offset_cal := 2 } }

/-- Modelled from the spec: the encoder of the round-trip property, the word
whose integer field is `v div U` and whose low byte is
`floor((v mod U) * 256 / U)`.  The driver itself only decodes. -/
def encode (U v : Nat) : Nat := (v / U) * 256 + (v % U) * 256 / U

/-! ## Bit-field lemmas -/

theorem testBit_32768 (i : Nat) : Nat.testBit 32768 i = decide (15 = i) := by
  have := @Nat.testBit_two_pow 15 i
  simpa using this

theorem and_0700_shift (w : Nat) : (w &&& 0x0700) >>> 8 = w / 256 % 8 := by
  have h1 : (w &&& 0x0700) >>> 8 = (w >>> 8) &&& 7 := by
    apply Nat.eq_of_testBit_eq
    intro i
    have h : (1792 : Nat) = 7 <<< 8 := by decide
    simp only [Nat.testBit_shiftRight, Nat.testBit_and, h, Nat.testBit_shiftLeft]
    simp
  rw [h1, Nat.shiftRight_eq_div_pow]
  exact Nat.and_pow_two_sub_one_eq_mod _ 3

theorem and_7F00_shift (w : Nat) : (w &&& 0x7F00) >>> 8 = w / 256 % 128 := by
  have h1 : (w &&& 0x7F00) >>> 8 = (w >>> 8) &&& 127 := by
    apply Nat.eq_of_testBit_eq
    intro i
    have h : (32512 : Nat) = 127 <<< 8 := by decide
    simp only [Nat.testBit_shiftRight, Nat.testBit_and, h, Nat.testBit_shiftLeft]
    simp
  rw [h1, Nat.shiftRight_eq_div_pow]
  exact Nat.and_pow_two_sub_one_eq_mod _ 7

theorem and_ff00_shift (w : Nat) : (w &&& 0xff00) >>> 8 = w / 256 % 256 := by
  have h1 : (w &&& 0xff00) >>> 8 = (w >>> 8) &&& 255 := by
    apply Nat.eq_of_testBit_eq
    intro i
    have h : (65280 : Nat) = 255 <<< 8 := by decide
    simp only [Nat.testBit_shiftRight, Nat.testBit_and, h, Nat.testBit_shiftLeft]
    simp
  rw [h1, Nat.shiftRight_eq_div_pow]
  exact Nat.and_pow_two_sub_one_eq_mod _ 8

theorem and_00ff (w : Nat) : w &&& 0x00ff = w % 256 :=
  Nat.and_pow_two_sub_one_eq_mod w 8

theorem shift_and_7 (w : Nat) : (w >>> 8) &&& 7 = w / 256 % 8 := by
  rw [Nat.shiftRight_eq_div_pow]
  exact Nat.and_pow_two_sub_one_eq_mod _ 3

theorem shift_and_7F (w : Nat) : (w >>> 8) &&& 0x7F = w / 256 % 128 := by
  rw [Nat.shiftRight_eq_div_pow]
  exact Nat.and_pow_two_sub_one_eq_mod _ 7

theorem shift_and_FF (w : Nat) : (w >>> 8) &&& 0xFF = w / 256 % 256 := by
  rw [Nat.shiftRight_eq_div_pow]
  exact Nat.and_pow_two_sub_one_eq_mod _ 8

theorem and_8000 (w : Nat) : w &&& 0x8000 = if w.testBit 15 then 0x8000 else 0 := by
  apply Nat.eq_of_testBit_eq
  intro i
  rw [Nat.testBit_and, testBit_32768]
  by_cases hi : 15 = i
  · subst hi; cases hb : w.testBit 15 <;> simp [testBit_32768]
  · cases hb : w.testBit 15 <;> simp [hi, testBit_32768]

theorem and_8000_ne_zero (w : Nat) : w &&& 0x8000 ≠ 0 ↔ w.testBit 15 = true := by
  rw [and_8000]
  cases w.testBit 15 <;> simp

theorem xor_8000_mod (w : Nat) : (w ^^^ 0x8000) % 2048 = w % 2048 := by
  have h : (2048 : Nat) = 2 ^ 11 := by decide
  rw [h]
  apply Nat.eq_of_testBit_eq
  intro i
  rw [Nat.testBit_mod_two_pow, Nat.testBit_mod_two_pow, Nat.testBit_xor, testBit_32768]
  by_cases hi : i < 11
  · have : ¬ (15 = i) := by omega
    simp [hi, this]
  · simp [hi]

theorem xor_8000_testBit (w : Nat) : (w ^^^ 0x8000).testBit 15 = !w.testBit 15 := by
  rw [Nat.testBit_xor, testBit_32768]; simp

/-! ## Register decoders -/

/-- The value both voltage decoders compute from a successfully read word. -/

theorem fg_get_vbat_val (fg : Fuelgauge) (w : Nat) :
    (fg_get_vbat fg (w : Int)).1 = ((w / 256 % 8 * 1000 + w % 256 * 1000 / 256 : Nat) : Int) := by
  have hneg : ¬ ((w : Int) < 0) := by omega
  simp only [fg_get_vbat, hneg, if_false, Int.toNat_ofNat, and_0700_shift, and_00ff]

theorem fg_get_ocv_val (fg : Fuelgauge) (w : Nat) :
    (fg_get_ocv fg (w : Int)).1 = ((w / 256 % 8 * 1000 + w % 256 * 1000 / 256 : Nat) : Int) := by
  have hneg : ¬ ((w : Int) < 0) := by omega
  simp only [fg_get_ocv, hneg, if_false, Int.toNat_ofNat, and_0700_shift, and_00ff]

theorem fg_get_curr_val (fg : Fuelgauge) (w : Nat) :
    (fg_get_curr fg (w : Int)).1 =
      if w.testBit 15 then -((w / 256 % 8 * 1000 + w % 256 * 1000 / 256 : Nat) : Int)
      else ((w / 256 % 8 * 1000 + w % 256 * 1000 / 256 : Nat) : Int) := by
  have hneg : ¬ ((w : Int) < 0) := by omega
  simp only [fg_get_curr, hneg, if_false, Int.toNat_ofNat, and_0700_shift, and_00ff,
    and_8000_ne_zero]
  split <;> simp

theorem fg_get_temp_val (fg : Fuelgauge) (w : Nat) :
    (fg_get_temp fg (w : Int)).1 =
      if w.testBit 15 then -((w / 256 % 128 * 10 + w % 256 * 10 / 256 : Nat) : Int)
      else ((w / 256 % 128 * 10 + w % 256 * 10 / 256 : Nat) : Int) := by
  have hneg : ¬ ((w : Int) < 0) := by omega
  simp only [fg_get_temp, hneg, if_false, Int.toNat_ofNat, and_7F00_shift, and_00ff,
    and_8000_ne_zero]
  split <;> simp

/-- C7: for every successfully read register word `w`, `fg_get_vbat` and
`fg_get_ocv` return `((w >> 8) & 7) * 1000 + ((w & 0xFF) * 1000) / 256`
millivolts; the result lies in `[0, 7996]` and is the same for any two words
that agree on bits 0 to 10, that is, it does not depend on bits 11 to 15. -/

theorem fg_get_vbat_ocv_decode (fg : Fuelgauge) (w : Nat) :
    (fg_get_vbat fg (w : Int)).1
        = ((((w >>> 8) &&& 7) * 1000 + ((w &&& 0xFF) * 1000) / 256 : Nat) : Int) ∧
    (fg_get_ocv fg (w : Int)).1
        = ((((w >>> 8) &&& 7) * 1000 + ((w &&& 0xFF) * 1000) / 256 : Nat) : Int) ∧
    0 ≤ (fg_get_vbat fg (w : Int)).1 ∧ (fg_get_vbat fg (w : Int)).1 ≤ 7996 ∧
    0 ≤ (fg_get_ocv fg (w : Int)).1 ∧ (fg_get_ocv fg (w : Int)).1 ≤ 7996 ∧
    (∀ w2 : Nat, w2 % 2048 = w % 2048 →
      (fg_get_vbat fg (w2 : Int)).1 = (fg_get_vbat fg (w : Int)).1 ∧
      (fg_get_ocv fg (w2 : Int)).1 = (fg_get_ocv fg (w : Int)).1) := by
  rw [shift_and_7, and_00ff]
  refine ⟨fg_get_vbat_val fg w, fg_get_ocv_val fg w, ?_, ?_, ?_, ?_, ?_⟩
  · rw [fg_get_vbat_val]; omega
  · rw [fg_get_vbat_val]; omega
  · rw [fg_get_ocv_val]; omega
  · rw [fg_get_ocv_val]; omega
  · intro w2 hw
    rw [fg_get_vbat_val, fg_get_vbat_val, fg_get_ocv_val, fg_get_ocv_val]
    have e1 : w2 % 256 = w % 256 := by omega
    have e2 : w2 / 256 % 8 = w / 256 % 8 := by omega
    rw [e1, e2]
    exact ⟨rfl, rfl⟩

/-- C8: for every successfully read register word `w`, `fg_get_curr` returns
the magnitude `((w >> 8) & 7) * 1000 + ((w & 0xFF) * 1000) / 256` mA, negated
exactly when bit 15 of `w` is set; flipping bit 15 negates the result, and the
result lies in `[-7996, 7996]`. -/

theorem fg_get_curr_decode (fg : Fuelgauge) (w : Nat) :
    (fg_get_curr fg (w : Int)).1
        = (if w.testBit 15
            then -((((w >>> 8) &&& 7) * 1000 + ((w &&& 0xFF) * 1000) / 256 : Nat) : Int)
            else ((((w >>> 8) &&& 7) * 1000 + ((w &&& 0xFF) * 1000) / 256 : Nat) : Int)) ∧
    (fg_get_curr fg ((w ^^^ 0x8000 : Nat) : Int)).1 = -(fg_get_curr fg (w : Int)).1 ∧
    -7996 ≤ (fg_get_curr fg (w : Int)).1 ∧ (fg_get_curr fg (w : Int)).1 ≤ 7996 := by
  rw [shift_and_7, and_00ff]
  refine ⟨fg_get_curr_val fg w, ?_, ?_, ?_⟩
  · rw [fg_get_curr_val, fg_get_curr_val, xor_8000_testBit]
    have hm := xor_8000_mod w
    have e1 : (w ^^^ 0x8000) % 256 = w % 256 := by omega
    have e2 : (w ^^^ 0x8000) / 256 % 8 = w / 256 % 8 := by omega
    rw [e1, e2]
    cases w.testBit 15 <;> simp
  · rw [fg_get_curr_val]; split <;> omega
  · rw [fg_get_curr_val]; split <;> omega

/-- C9: for every successfully read register word `w`, `fg_get_temp` returns
`((w >> 8) & 0x7F) * 10 + ((w & 0xFF) * 10) / 256` tenths of a degree, negated
exactly when bit 15 of `w` is set; the result lies in `[-1279, 1279]`, and the
only effect on the driver state is that this value is stored in
`info.temperature`: no average is kept. -/

theorem fg_get_temp_decode (fg : Fuelgauge) (w : Nat) :
    (fg_get_temp fg (w : Int)).1
        = (if w.testBit 15
            then -((((w >>> 8) &&& 0x7F) * 10 + ((w &&& 0xFF) * 10) / 256 : Nat) : Int)
            else ((((w >>> 8) &&& 0x7F) * 10 + ((w &&& 0xFF) * 10) / 256 : Nat) : Int)) ∧
    -1279 ≤ (fg_get_temp fg (w : Int)).1 ∧ (fg_get_temp fg (w : Int)).1 ≤ 1279 ∧
    (fg_get_temp fg (w : Int)).2
        = { fg with info := { fg.info with temperature := (fg_get_temp fg (w : Int)).1 } } := by
  rw [shift_and_7F, and_00ff]
  refine ⟨fg_get_temp_val fg w, ?_, ?_, rfl⟩
  · rw [fg_get_temp_val]; split <;> omega
  · rw [fg_get_temp_val]; split <;> omega

theorem foldl_capacity_state {α : Type} (f : Fuelgauge → α → Fuelgauge)
    (hf : ∀ fg a, capacity_state (f fg a) = capacity_state fg) (l : List α) (fg : Fuelgauge) :
    capacity_state (l.foldl f fg) = capacity_state fg := by
  induction l generalizing fg with
  | nil => rfl
  | cons a l ih => rw [List.foldl_cons, ih, hf]

theorem write_capacity_state (fg : Fuelgauge) (r : Nat) (d : Int) :
    capacity_state (sm5703_fg_i2c_write_word fg r d) = capacity_state fg := rfl

theorem table_row_capacity_state (h : Hdr) (fg : Fuelgauge) (i : Nat) :
    capacity_state (sm5703_fg_reg_init_table_row h fg i) = capacity_state fg := by
  unfold sm5703_fg_reg_init_table_row
  simp only []
  exact foldl_capacity_state _ (fun fg a => write_capacity_state _ _ _) _ _

theorem reg_init_capacity_state (h : Hdr) (fg : Fuelgauge) (b : Bool) :
    capacity_state (sm5703_fg_reg_init h fg b).2 = capacity_state fg := by
  unfold sm5703_fg_reg_init
  simp only []
  split <;>
  · simp only [write_capacity_state]
    refine (foldl_capacity_state _ (table_row_capacity_state h) _ _).trans ?_
    simp only [write_capacity_state]
    exact foldl_capacity_state _ (fun fg a => write_capacity_state _ _ _) _ _

theorem init_capacity_state (h : Hdr) (fg : Fuelgauge) (b : Bool) (rd : InitReads) :
    capacity_state (sm5703_fg_init h fg b rd).2 = capacity_state fg := by
  unfold sm5703_fg_init
  simp only []
  split
  · rfl
  · split
    · show capacity_state (sm5703_fg_reg_init h _ b).2 = _
      rw [reg_init_capacity_state]; rfl
    · rfl

theorem temp_offset_of_state {a b : Fuelgauge} (e : capacity_state a = capacity_state b) :
    a.info.temp_offset = b.info.temp_offset :=
  congrArg (fun s => s.2.2.2.2.2.2.2) e

theorem fg_get_soc_some (h : Hdr) (fg : Fuelgauge) (rd : SocReads)
    (h0 : fg.info.temp_offset ≠ 0) :
    ∃ fg2, fg_get_soc h fg rd = some (fg_get_soc_value rd.soc, fg2) ∧
      capacity_state fg2 = capacity_state fg := by
  have hinit : capacity_state (sm5703_fg_init h
      (msleep (sm5703_fg_i2c_write_word fg 0x90 0x0008) 200) true rd.reinit).2
      = capacity_state fg := by
    rw [init_capacity_state]; rfl
  unfold fg_get_soc
  simp only []
  by_cases c1 : rd.op_status % 256 ≠ h.DISABLE_RE_INIT ∧ fg.info.is_FG_initialised = 1
  · by_cases c2 : rd.cntl = 0x2008
    · rw [if_pos c1, if_pos c2]
      split
      · next hc => exact absurd ((temp_offset_of_state hinit).symm.trans hc) h0
      · exact ⟨_, rfl, hinit⟩
    · rw [if_pos c1, if_neg c2]
      split
      · next hc => exact absurd hc h0
      · exact ⟨_, rfl, rfl⟩
  · rw [if_neg c1]
    split
    · next hc => exact absurd hc h0
    · exact ⟨_, rfl, rfl⟩

theorem fg_get_soc_value_word (w : Nat) :
    fg_get_soc_value (w : Int) = ((w / 256 % 256 * 10 + w % 256 * 10 / 256 : Nat) : Int) := by
  have hneg : ¬ ((w : Int) < 0) := by omega
  simp only [fg_get_soc_value, hneg, if_false, Int.toNat_ofNat, and_ff00_shift, and_00ff]

theorem fg_get_soc_value_range (ret : Int) :
    0 ≤ fg_get_soc_value ret ∧ fg_get_soc_value ret ≤ 2559 := by
  by_cases hr : ret < 0
  · simp [fg_get_soc_value, hr]
  · have e : ret = ((ret.toNat : Nat) : Int) := by omega
    rw [e, fg_get_soc_value_word]
    omega

/-- C10: when the divisor `temp_offset` of the calibration step is non-zero,
`fg_get_soc` returns `((w >> 8) & 0xFF) * 10 + ((w & 0xFF) * 10) / 256` for
every successfully read SOC word `w`, a value in `[0, 2559]`, and returns
exactly 500 when the SOC register read fails. -/

theorem fg_get_soc_decode (h : Hdr) (fg : Fuelgauge) (rd : SocReads) (w : Nat)
    (h0 : fg.info.temp_offset ≠ 0) :
    (fg_get_soc h fg { rd with soc := (w : Int) }).map Prod.fst
        = some ((((w >>> 8) &&& 0xFF) * 10 + ((w &&& 0xFF) * 10) / 256 : Nat) : Int) ∧
    ((w >>> 8) &&& 0xFF) * 10 + ((w &&& 0xFF) * 10) / 256 ≤ 2559 ∧
    (∀ err : Int, err < 0 →
      (fg_get_soc h fg { rd with soc := err }).map Prod.fst = some 500) := by
  rw [shift_and_FF, and_00ff]
  refine ⟨?_, by omega, ?_⟩
  · obtain ⟨fg2, e, -⟩ := fg_get_soc_some h fg { rd with soc := (w : Int) } h0
    rw [e, Option.map_some']
    exact congrArg some (fg_get_soc_value_word w)
  · intro err herr
    obtain ⟨fg2, e, -⟩ := fg_get_soc_some h fg { rd with soc := err } h0
    rw [e, Option.map_some']
    simp [fg_get_soc_value, herr]

theorem fg_get_soc_none (h : Hdr) (fg : Fuelgauge) (rd : SocReads)
    (h0 : fg.info.temp_offset = 0) : fg_get_soc h fg rd = none := by
  have hinit : capacity_state (sm5703_fg_init h
      (msleep (sm5703_fg_i2c_write_word fg 0x90 0x0008) 200) true rd.reinit).2
      = capacity_state fg := by
    rw [init_capacity_state]; rfl
  unfold fg_get_soc
  simp only []
  by_cases c1 : rd.op_status % 256 ≠ h.DISABLE_RE_INIT ∧ fg.info.is_FG_initialised = 1
  · by_cases c2 : rd.cntl = 0x2008
    · rw [if_pos c1, if_pos c2]
      exact if_pos ((temp_offset_of_state hinit).trans h0)
    · rw [if_pos c1, if_neg c2]
      exact if_pos h0
  · rw [if_neg c1]
    exact if_pos h0

theorem fg_get_soc_frame (h : Hdr) (fg : Fuelgauge) (rd : SocReads) (r : Int × Fuelgauge)
    (e : fg_get_soc h fg rd = some r) :
    r.1 = fg_get_soc_value rd.soc ∧ capacity_state r.2 = capacity_state fg := by
  by_cases h0 : fg.info.temp_offset = 0
  · rw [fg_get_soc_none h fg rd h0] at e; cases e
  · obtain ⟨fg2, e2, hf⟩ := fg_get_soc_some h fg rd h0
    rw [e2] at e
    cases e
    exact ⟨rfl, hf⟩

theorem hal_get_capacity_state (h : Hdr) (fg : Fuelgauge) (psp : Psp) (val : Int) (rd : Reads)
    (r : Bool × Int × Fuelgauge) (e : sec_hal_fg_get_property h fg psp val rd = some r) :
    capacity_state r.2.2 = capacity_state fg := by
  unfold sec_hal_fg_get_property at e
  simp only [] at e
  cases psp
  case CAPACITY =>
    simp only [] at e
    split at e
    · cases e
    · next soc fg2 hs =>
      have hf := (fg_get_soc_frame h _ rd.soc _ hs).2
      split at e <;> cases e <;> exact hf
  case VOLTAGE_AVG =>
    simp only [] at e
    split at e
    · cases e; rfl
    · split at e <;> cases e <;> rfl
  all_goals
    simp only [Option.some.injEq] at e
    subst e
    rfl

theorem clamp_percent_range (val : Int) : 0 ≤ clamp_percent val ∧ clamp_percent val ≤ 100 := by
  unfold clamp_percent
  simp only []
  have key : ∀ c : Int, 0 ≤ c → c ≤ 1000 → 0 ≤ c.tdiv 10 ∧ c.tdiv 10 ≤ 100 := by
    intro c h0 h1
    rw [Int.tdiv_eq_ediv h0 (by decide)]
    omega
  apply key <;> split_ifs <;> omega

theorem alert_step_state (h : Hdr) (fg : Fuelgauge) (val : Int) :
    capacity_state (alert_step h fg val) = capacity_state fg := by
  unfold alert_step
  split <;> rfl

theorem or_ne_zero_iff (a b : Nat) : a ||| b ≠ 0 ↔ a ≠ 0 ∨ b ≠ 0 := by
  constructor
  · intro hab
    by_contra hc
    push_neg at hc
    rw [hc.1, hc.2] at hab
    exact hab rfl
  · intro hab hz
    have ha : a = 0 := by
      apply Nat.eq_of_testBit_eq; intro i
      have := congrArg (fun x => Nat.testBit x i) hz
      simp at this; simp [this.1]
    have hb : b = 0 := by
      apply Nat.eq_of_testBit_eq; intro i
      have := congrArg (fun x => Nat.testBit x i) hz
      simp at this; simp [this.2]
    rcases hab with hab | hab
    · exact hab ha
    · exact hab hb

theorem mask_or_ne_zero (t a b : Nat) : t &&& (a ||| b) ≠ 0 ↔ t &&& a ≠ 0 ∨ t &&& b ≠ 0 := by
  rw [Nat.and_or_distrib_left, or_ne_zero_iff]

theorem capacity_unfold (h : Hdr) (fg : Fuelgauge) (val : Int) :
    sm5703_fg_get_property_capacity h fg val =
      (if fg.pdata.capacity_calculation_type &&&
          (h.SEC_FUELGAUGE_CAPACITY_TYPE_SCALE |||
            h.SEC_FUELGAUGE_CAPACITY_TYPE_DYNAMIC_SCALE) ≠ 0 then
        sec_fg_get_scaled_capacity fg val
      else some val).bind (fun val2 =>
        some (if (alert_step h fg (clamp_percent val2)).initial_update_of_soc then
            (0, clamp_percent val2, { alert_step h fg (clamp_percent val2) with
                capacity_old := clamp_percent val2, initial_update_of_soc := false })
          else if (alert_step h fg (clamp_percent val2)).pdata.capacity_calculation_type &&&
              (h.SEC_FUELGAUGE_CAPACITY_TYPE_ATOMIC |||
                h.SEC_FUELGAUGE_CAPACITY_TYPE_SKIP_ABNORMAL) ≠ 0 then
            (0, (sec_fg_get_atomic_capacity h (alert_step h fg (clamp_percent val2))
                  (clamp_percent val2)).1,
              (sec_fg_get_atomic_capacity h (alert_step h fg (clamp_percent val2))
                  (clamp_percent val2)).2)
          else (0, clamp_percent val2, alert_step h fg (clamp_percent val2)))) := by
  unfold sm5703_fg_get_property_capacity
  simp only []
  cases (if fg.pdata.capacity_calculation_type &&&
          (h.SEC_FUELGAUGE_CAPACITY_TYPE_SCALE |||
            h.SEC_FUELGAUGE_CAPACITY_TYPE_DYNAMIC_SCALE) ≠ 0 then
        sec_fg_get_scaled_capacity fg val
      else some val) with
  | none => rfl
  | some val2 =>
    rw [Option.some_bind, apply_ite some, apply_ite some]
    rfl

theorem capacity_post (h : Hdr) (fg : Fuelgauge) (val : Int) (r : Int × Int × Fuelgauge)
    (e : sm5703_fg_get_property_capacity h fg val = some r) :
    ∃ v0 fgA, 0 ≤ v0 ∧ v0 ≤ 100 ∧ capacity_state fgA = capacity_state fg ∧
      r = (if fgA.initial_update_of_soc then
            (0, v0, { fgA with capacity_old := v0, initial_update_of_soc := false })
          else if fgA.pdata.capacity_calculation_type &&&
              (h.SEC_FUELGAUGE_CAPACITY_TYPE_ATOMIC |||
                h.SEC_FUELGAUGE_CAPACITY_TYPE_SKIP_ABNORMAL) ≠ 0 then
            (0, (sec_fg_get_atomic_capacity h fgA v0).1, (sec_fg_get_atomic_capacity h fgA v0).2)
          else (0, v0, fgA)) := by
  rw [capacity_unfold, Option.bind_eq_some] at e
  obtain ⟨val2, -, e2⟩ := e
  refine ⟨clamp_percent val2, alert_step h fg (clamp_percent val2),
    (clamp_percent_range val2).1, (clamp_percent_range val2).2, alert_step_state h fg _, ?_⟩
  exact (Option.some.inj e2).symm

theorem capacity_post_some (h : Hdr) (fg : Fuelgauge) (val : Int)
    (hdiv : fg.capacity_max ≠ fg.pdata.capacity_min) :
    ∃ r, sm5703_fg_get_property_capacity h fg val = some r := by
  have hsc : ∃ v, sec_fg_get_scaled_capacity fg val = some v := by
    unfold sec_fg_get_scaled_capacity
    split
    · exact ⟨_, rfl⟩
    · rw [if_neg (by omega)]
      exact ⟨_, rfl⟩
  obtain ⟨v, hv⟩ := hsc
  rw [capacity_unfold, hv]
  split <;> exact ⟨_, rfl⟩

theorem hal_capacity_some (h : Hdr) (fg : Fuelgauge) (val : Int) (rd : Reads)
    (h0 : fg.info.temp_offset ≠ 0) :
    ∃ fg2, sec_hal_fg_get_property h fg Psp.CAPACITY val rd
        = some (true, (if val = h.SEC_FUELGAUGE_CAPACITY_TYPE_RAW
            then fg_get_soc_value rd.soc.soc * 10 else fg_get_soc_value rd.soc.soc), fg2) ∧
      capacity_state fg2 = capacity_state fg := by
  obtain ⟨fg2, e, hf⟩ := fg_get_soc_some h
    { fg with info := { fg.info with
      flag_full_charge := if rd.chg_status = h.POWER_SUPPLY_STATUS_FULL then 1 else 0
      flag_chg_status := if rd.chg_status = h.POWER_SUPPLY_STATUS_CHARGING then 1 else 0 } }
    rd.soc h0
  refine ⟨fg2, ?_, hf⟩
  unfold sec_hal_fg_get_property
  simp only []
  rw [e]
  simp only []
  split <;> rfl

theorem hal_capacity_none (h : Hdr) (fg : Fuelgauge) (val : Int) (rd : Reads)
    (h0 : fg.info.temp_offset = 0) :
    sec_hal_fg_get_property h fg Psp.CAPACITY val rd = none := by
  have e := fg_get_soc_none h
    { fg with info := { fg.info with
      flag_full_charge := if rd.chg_status = h.POWER_SUPPLY_STATUS_FULL then 1 else 0
      flag_chg_status := if rd.chg_status = h.POWER_SUPPLY_STATUS_CHARGING then 1 else 0 } }
    rd.soc h0
  unfold sec_hal_fg_get_property
  simp only []
  rw [e]

theorem get_capacity_none (h : Hdr) (fg : Fuelgauge) (val : Int) (rd : Reads)
    (h0 : fg.info.temp_offset = 0) :
    sm5703_fg_get_property h fg Psp.CAPACITY val rd = none := by
  unfold sm5703_fg_get_property
  simp only []
  rw [hal_capacity_none h fg val rd h0]

theorem get_capacity_raw (h : Hdr) (fg : Fuelgauge) (rd : Reads)
    (h0 : fg.info.temp_offset ≠ 0) :
    ∃ fg2, sm5703_fg_get_property h fg Psp.CAPACITY h.SEC_FUELGAUGE_CAPACITY_TYPE_RAW rd
        = some (0, fg_get_soc_value rd.soc.soc * 10, fg2) ∧
      capacity_state fg2 = capacity_state fg := by
  obtain ⟨fg2, e, hf⟩ := hal_capacity_some h fg h.SEC_FUELGAUGE_CAPACITY_TYPE_RAW rd h0
  refine ⟨fg2, ?_, hf⟩
  unfold sm5703_fg_get_property
  simp only []
  rw [e]
  simp

theorem get_capacity_nonraw (h : Hdr) (fg : Fuelgauge) (val : Int) (rd : Reads)
    (hraw : val ≠ h.SEC_FUELGAUGE_CAPACITY_TYPE_RAW) (h0 : fg.info.temp_offset ≠ 0) :
    ∃ fg2, capacity_state fg2 = capacity_state fg ∧
      sm5703_fg_get_property h fg Psp.CAPACITY val rd
        = sm5703_fg_get_property_capacity h fg2 (fg_get_soc_value rd.soc.soc) := by
  obtain ⟨fg2, e, hf⟩ := hal_capacity_some h fg val rd h0
  refine ⟨fg2, hf, ?_⟩
  unfold sm5703_fg_get_property
  simp only []
  rw [e]
  simp [hraw]

theorem atomic_range (h : Hdr) (fg : Fuelgauge) (v : Int)
    (ho : 0 ≤ fg.capacity_old ∧ fg.capacity_old ≤ 100) (hv : 0 ≤ v ∧ v ≤ 100) :
    0 ≤ (sec_fg_get_atomic_capacity h fg v).1 ∧ (sec_fg_get_atomic_capacity h fg v).1 ≤ 100 := by
  unfold sec_fg_get_atomic_capacity
  simp only []
  split_ifs <;> omega

theorem atomic_near (h : Hdr) (fg : Fuelgauge) (v : Int)
    (ha : fg.pdata.capacity_calculation_type &&& h.SEC_FUELGAUGE_CAPACITY_TYPE_ATOMIC ≠ 0) :
    |(sec_fg_get_atomic_capacity h fg v).1 - fg.capacity_old| ≤ 1 := by
  unfold sec_fg_get_atomic_capacity
  simp only []
  rw [if_pos ha, abs_le]
  split_ifs <;> omega

theorem atomic_le_old (h : Hdr) (fg : Fuelgauge) (v : Int)
    (hs : fg.pdata.capacity_calculation_type &&&
      h.SEC_FUELGAUGE_CAPACITY_TYPE_SKIP_ABNORMAL ≠ 0)
    (hc : fg.is_charging = false) :
    (sec_fg_get_atomic_capacity h fg v).1 ≤ fg.capacity_old := by
  unfold sec_fg_get_atomic_capacity
  simp only []
  rw [if_pos hs, hc]
  simp only [Bool.not_false, Bool.true_and, decide_eq_true_eq]
  split_ifs <;> omega

theorem query_step (h : Hdr) (fg : Fuelgauge) (val : Int) (rd : Reads)
    (r : Int × Int × Fuelgauge) (hraw : val ≠ h.SEC_FUELGAUGE_CAPACITY_TYPE_RAW)
    (e : sm5703_fg_get_property h fg Psp.CAPACITY val rd = some r) :
    ∃ v0 fgA, 0 ≤ v0 ∧ v0 ≤ 100 ∧ capacity_state fgA = capacity_state fg ∧
      r = (if fgA.initial_update_of_soc then
            (0, v0, { fgA with capacity_old := v0, initial_update_of_soc := false })
          else if fgA.pdata.capacity_calculation_type &&&
              (h.SEC_FUELGAUGE_CAPACITY_TYPE_ATOMIC |||
                h.SEC_FUELGAUGE_CAPACITY_TYPE_SKIP_ABNORMAL) ≠ 0 then
            (0, (sec_fg_get_atomic_capacity h fgA v0).1, (sec_fg_get_atomic_capacity h fgA v0).2)
          else (0, v0, fgA)) := by
  by_cases h0 : fg.info.temp_offset = 0
  · rw [get_capacity_none h fg val rd h0] at e; cases e
  · obtain ⟨fg2, hf, e2⟩ := get_capacity_nonraw h fg val rd hraw h0
    rw [e2] at e
    obtain ⟨v0, fgA, hv0, hv1, hfA, hr⟩ := capacity_post h fg2 _ r e
    exact ⟨v0, fgA, hv0, hv1, hfA.trans hf, hr⟩

theorem query_total (h : Hdr) (fg : Fuelgauge) (val : Int) (rd : Reads)
    (hraw : val ≠ h.SEC_FUELGAUGE_CAPACITY_TYPE_RAW) (h0 : fg.info.temp_offset ≠ 0)
    (hdiv : fg.capacity_max ≠ fg.pdata.capacity_min) :
    ∃ r, sm5703_fg_get_property h fg Psp.CAPACITY val rd = some r := by
  obtain ⟨fg2, hf, e2⟩ := get_capacity_nonraw h fg val rd hraw h0
  rw [e2]
  apply capacity_post_some
  have e1 : fg2.capacity_max = fg.capacity_max := congrArg (fun s => s.2.2.1) hf
  have e3 : fg2.pdata = fg.pdata := congrArg (fun s => s.1) hf
  rw [e1, e3]
  exact hdiv

/-- Facts about one query that is not of the RAW type, in terms of the
capacity state before and after. -/

theorem query_facts (h : Hdr) (fg : Fuelgauge) (val : Int) (rd : Reads)
    (r : Int × Int × Fuelgauge) (hraw : val ≠ h.SEC_FUELGAUGE_CAPACITY_TYPE_RAW)
    (e : sm5703_fg_get_property h fg Psp.CAPACITY val rd = some r) :
    r.1 = 0 ∧ r.2.2.pdata = fg.pdata ∧ r.2.2.is_charging = fg.is_charging ∧
    r.2.2.capacity_max = fg.capacity_max ∧ r.2.2.info.temp_offset = fg.info.temp_offset ∧
    r.2.2.initial_update_of_soc = false ∧
    (0 ≤ fg.capacity_old ∧ fg.capacity_old ≤ 100 →
      0 ≤ r.2.1 ∧ r.2.1 ≤ 100 ∧ 0 ≤ r.2.2.capacity_old ∧ r.2.2.capacity_old ≤ 100) ∧
    (fg.initial_update_of_soc = true → 0 ≤ r.2.1 ∧ r.2.1 ≤ 100 ∧ r.2.2.capacity_old = r.2.1) ∧
    (fg.pdata.capacity_calculation_type &&& h.SEC_FUELGAUGE_CAPACITY_TYPE_ATOMIC ≠ 0 →
      r.2.2.capacity_old = r.2.1 ∧
      (fg.initial_update_of_soc = false → |r.2.1 - fg.capacity_old| ≤ 1)) ∧
    (fg.pdata.capacity_calculation_type &&& h.SEC_FUELGAUGE_CAPACITY_TYPE_SKIP_ABNORMAL ≠ 0 →
      r.2.2.capacity_old = r.2.1 ∧
      (fg.initial_update_of_soc = false → fg.is_charging = false →
        r.2.1 ≤ fg.capacity_old)) := by
  obtain ⟨v0, fgA, hv0, hv1, hf, hr⟩ := query_step h fg val rd r hraw e
  have e1 : fgA.pdata = fg.pdata := congrArg (fun s => s.1) hf
  have e2 : fgA.capacity_old = fg.capacity_old := congrArg (fun s => s.2.1) hf
  have e3 : fgA.capacity_max = fg.capacity_max := congrArg (fun s => s.2.2.1) hf
  have e4 : fgA.initial_update_of_soc = fg.initial_update_of_soc :=
    congrArg (fun s => s.2.2.2.1) hf
  have e5 : fgA.is_charging = fg.is_charging := congrArg (fun s => s.2.2.2.2.1) hf
  have e6 : fgA.info.temp_offset = fg.info.temp_offset := congrArg (fun s => s.2.2.2.2.2.2.2) hf
  by_cases hi : fgA.initial_update_of_soc = true
  · rw [if_pos hi] at hr
    subst hr
    have hi1 : fg.initial_update_of_soc = true := by rw [← e4]; exact hi
    exact ⟨rfl, e1, e5, e3, e6, rfl, fun _ => ⟨hv0, hv1, hv0, hv1⟩, fun _ => ⟨hv0, hv1, rfl⟩,
      fun _ => ⟨rfl, fun hc => by rw [hi1] at hc; cases hc⟩,
      fun _ => ⟨rfl, fun hc _ => by rw [hi1] at hc; cases hc⟩⟩
  · rw [if_neg hi] at hr
    have hi2 : fg.initial_update_of_soc = false := by
      rw [← e4]; simpa using hi
    by_cases hm : fgA.pdata.capacity_calculation_type &&&
        (h.SEC_FUELGAUGE_CAPACITY_TYPE_ATOMIC |||
          h.SEC_FUELGAUGE_CAPACITY_TYPE_SKIP_ABNORMAL) ≠ 0
    · rw [if_pos hm] at hr
      subst hr
      refine ⟨rfl, e1, e5, e3, e6, ?_, ?_, ?_, ?_, ?_⟩
      · show fgA.initial_update_of_soc = false
        rw [e4]; exact hi2
      · intro ho
        have := atomic_range h fgA v0 (by rw [e2]; exact ho) ⟨hv0, hv1⟩
        exact ⟨this.1, this.2, this.1, this.2⟩
      · intro hc; rw [hi2] at hc; cases hc
      · intro ha
        refine ⟨rfl, fun _ => ?_⟩
        rw [← e2]
        exact atomic_near h fgA v0 (by rw [e1]; exact ha)
      · intro hs
        refine ⟨rfl, fun _ hc => ?_⟩
        rw [← e2]
        exact atomic_le_old h fgA v0 (by rw [e1]; exact hs) (by rw [e5]; exact hc)
    · rw [if_neg hm] at hr
      subst hr
      rw [mask_or_ne_zero, e1] at hm
      push_neg at hm
      refine ⟨rfl, e1, e5, e3, e6, ?_, ?_, ?_, ?_, ?_⟩
      · show fgA.initial_update_of_soc = false
        rw [e4]; exact hi2
      · intro ho
        refine ⟨hv0, hv1, ?_, ?_⟩
        · show 0 ≤ fgA.capacity_old
          rw [e2]; exact ho.1
        · show fgA.capacity_old ≤ 100
          rw [e2]; exact ho.2
      · intro hc; rw [hi2] at hc; cases hc
      · intro ha; exact absurd hm.1 ha
      · intro hs; exact absurd hm.2 hs

theorem dynamic_scale_eq (h : Hdr) (fg : Fuelgauge) (rd : Reads)
    (h0 : fg.info.temp_offset ≠ 0) :
    ∃ fg2, capacity_state fg2 = capacity_state fg ∧
      sec_fg_calculate_dynamic_scale h fg rd =
        some ((((if fg_get_soc_value rd.soc.soc
                      < fg.pdata.capacity_max - fg.pdata.capacity_max_margin then
                    fg.pdata.capacity_max - fg.pdata.capacity_max_margin
                  else if fg_get_soc_value rd.soc.soc
                      > fg.pdata.capacity_max + fg.pdata.capacity_max_margin then
                    fg.pdata.capacity_max + fg.pdata.capacity_max_margin
                  else fg_get_soc_value rd.soc.soc) * 99).tdiv 100),
          { fg2 with
            capacity_max :=
              (((if fg_get_soc_value rd.soc.soc
                      < fg.pdata.capacity_max - fg.pdata.capacity_max_margin then
                    fg.pdata.capacity_max - fg.pdata.capacity_max_margin
                  else if fg_get_soc_value rd.soc.soc
                      > fg.pdata.capacity_max + fg.pdata.capacity_max_margin then
                    fg.pdata.capacity_max + fg.pdata.capacity_max_margin
                  else fg_get_soc_value rd.soc.soc) * 99).tdiv 100)
            capacity_old := 100 }) := by
  obtain ⟨fg2, e, hf⟩ := hal_capacity_some h fg h.SEC_FUELGAUGE_CAPACITY_TYPE_RAW rd h0
  rw [if_pos rfl] at e
  have e1 : fg2.pdata = fg.pdata := congrArg (fun s => s.1) hf
  refine ⟨fg2, hf, ?_⟩
  unfold sec_fg_calculate_dynamic_scale
  rw [e]
  simp only [Bool.not_true, Bool.false_eq_true, ↓reduceIte,
    Int.mul_tdiv_cancel _ (by decide : (10 : Int) ≠ 0)]
  rw [e1]
  split_ifs <;> rfl

theorem dynamic_scale_none (h : Hdr) (fg : Fuelgauge) (rd : Reads)
    (h0 : fg.info.temp_offset = 0) : sec_fg_calculate_dynamic_scale h fg rd = none := by
  unfold sec_fg_calculate_dynamic_scale
  rw [hal_capacity_none h fg _ rd h0]

theorem dynamic_scale_old (h : Hdr) (fg : Fuelgauge) (rd : Reads) (r : Int × Fuelgauge)
    (e : sec_fg_calculate_dynamic_scale h fg rd = some r) : r.2.capacity_old = 100 := by
  by_cases h0 : fg.info.temp_offset = 0
  · rw [dynamic_scale_none h fg rd h0] at e; cases e
  · obtain ⟨fg2, -, e2⟩ := dynamic_scale_eq h fg rd h0
    rw [e2] at e
    cases e
    rfl

theorem get_other_state (h : Hdr) (fg : Fuelgauge) (psp : Psp) (val : Int) (rd : Reads)
    (r : Int × Int × Fuelgauge) (hp : psp ≠ Psp.CAPACITY)
    (e : sm5703_fg_get_property h fg psp val rd = some r) :
    capacity_state r.2.2 = capacity_state fg := by
  have hal : ∀ p, psp ≠ Psp.CAPACITY →
      (match sec_hal_fg_get_property h fg psp val rd with
        | none => none
        | some (ok, val2, fg2) =>
          if !ok then some (-h.EINVAL, val2, fg2)
          else if psp = Psp.CAPACITY then
            if val = h.SEC_FUELGAUGE_CAPACITY_TYPE_RAW then some (0, val2, fg2)
            else sm5703_fg_get_property_capacity h fg2 val2
          else some (0, val2, fg2)) = some p →
      capacity_state p.2.2 = capacity_state fg := by
    intro p hp2 e2
    cases hh : sec_hal_fg_get_property h fg psp val rd with
    | none => rw [hh] at e2; cases e2
    | some q =>
      obtain ⟨ok, val2, fg2⟩ := q
      have hf := hal_get_capacity_state h fg psp val rd _ hh
      rw [hh] at e2
      simp only [if_neg hp2] at e2
      split at e2 <;> cases e2 <;> exact hf
  unfold sm5703_fg_get_property at e
  cases psp
  case CAPACITY => exact absurd rfl hp
  case ENERGY_FULL_DESIGN => cases e; rfl
  case STATUS => cases e; rfl
  case CHARGE_FULL => cases e; rfl
  case HEALTH => cases e; rfl
  case ONLINE => cases e; rfl
  case OTHER n => cases e; rfl
  all_goals exact hal r hp e

theorem get_capacity_old (h : Hdr) (fg : Fuelgauge) (psp : Psp) (val : Int) (rd : Reads)
    (r : Int × Int × Fuelgauge)
    (e : sm5703_fg_get_property h fg psp val rd = some r)
    (ho : 0 ≤ fg.capacity_old ∧ fg.capacity_old ≤ 100) :
    0 ≤ r.2.2.capacity_old ∧ r.2.2.capacity_old ≤ 100 := by
  by_cases hp : psp = Psp.CAPACITY
  · subst hp
    by_cases hraw : val = h.SEC_FUELGAUGE_CAPACITY_TYPE_RAW
    · subst hraw
      by_cases h0 : fg.info.temp_offset = 0
      · rw [get_capacity_none h fg _ rd h0] at e; cases e
      · obtain ⟨fg2, e2, hf⟩ := get_capacity_raw h fg rd h0
        rw [e2] at e
        cases e
        have e3 : fg2.capacity_old = fg.capacity_old := congrArg (fun s => s.2.1) hf
        show 0 ≤ fg2.capacity_old ∧ fg2.capacity_old ≤ 100
        rw [e3]; exact ho
    · have hq := (query_facts h fg val rd r hraw e).2.2.2.2.2.2.1 ho
      exact ⟨hq.2.2.1, hq.2.2.2⟩
  · have hf := get_other_state h fg psp val rd r hp e
    have e3 : r.2.2.capacity_old = fg.capacity_old := congrArg (fun s => s.2.1) hf
    rw [e3]; exact ho

theorem set_capacity_old (h : Hdr) (fg : Fuelgauge) (psp : Psp) (val : Int) (rd : Reads)
    (r : Int × Fuelgauge)
    (e : sm5703_fg_set_property h fg psp val rd = some r)
    (ho : 0 ≤ fg.capacity_old ∧ fg.capacity_old ≤ 100) :
    0 ≤ r.2.capacity_old ∧ r.2.capacity_old ≤ 100 := by
  unfold sm5703_fg_set_property at e
  cases psp
  case CHARGE_FULL =>
    simp only [] at e
    split at e
    · split at e
      · split at e
        · cases e
        · next r2 hs =>
          cases e
          rw [dynamic_scale_old h fg rd r2 hs]
          omega
      · cases e; exact ho
    · cases e; exact ho
  case CAPACITY =>
    simp only [] at e
    split at e
    · have hf : capacity_state (sec_hal_fg_reset h
          { fg with initial_update_of_soc := true } rd.init).2
          = capacity_state { fg with initial_update_of_soc := true } := by
        unfold sec_hal_fg_reset
        simp only []
        rw [init_capacity_state]; rfl
      have e3 : (sec_hal_fg_reset h { fg with initial_update_of_soc := true } rd.init).2.capacity_old
          = fg.capacity_old := congrArg (fun s => s.2.1) hf
      split at e <;> cases e <;> (rw [e3]; exact ho)
    · split at e <;> cases e <;> exact ho
  case STATUS => simp only [] at e; split at e <;> cases e <;> exact ho
  case ONLINE => simp only [] at e; split at e <;> cases e <;> exact ho
  case TEMP => simp only [] at e; split at e <;> cases e <;> exact ho
  case TEMP_AMBIENT => simp only [] at e; split at e <;> cases e <;> exact ho
  all_goals
    cases e
    exact ho

theorem reachable_capacity_old (h : Hdr) (fg : Fuelgauge) (hr : Reachable h fg) :
    0 ≤ fg.capacity_old ∧ fg.capacity_old ≤ 100 := by
  induction hr with
  | init fg hold hinit => rw [hold]; omega
  | get fg psp val rd r _ hstep ih => exact get_capacity_old h fg psp val rd r hstep ih
  | set fg psp val rd r _ hstep ih => exact set_capacity_old h fg psp val rd r hstep ih
  | scale fg rd r _ hstep _ => rw [dynamic_scale_old h fg rd r hstep]; omega

/-! ## Capacity stabilizer -/

theorem queries_chain (h : Hdr) (R : Int → Int → Prop) (P : Fuelgauge → Prop)
    (hP : ∀ fg val rd r, P fg → val ≠ h.SEC_FUELGAUGE_CAPACITY_TYPE_RAW →
      sm5703_fg_get_property h fg Psp.CAPACITY val rd = some r →
      P r.2.2 ∧ r.2.2.capacity_old = r.2.1 ∧ r.2.2.initial_update_of_soc = false ∧
        (fg.initial_update_of_soc = false → R fg.capacity_old r.2.1)) :
    ∀ (qs : List (Int × Reads)) (fg : Fuelgauge) (outs : List Int) (fg2 : Fuelgauge),
      P fg → (∀ q ∈ qs, q.1 ≠ h.SEC_FUELGAUGE_CAPACITY_TYPE_RAW) →
      capacity_queries h fg qs = some (outs, fg2) →
      outs.length = qs.length ∧
      (fg.initial_update_of_soc = false → List.Chain R fg.capacity_old outs) ∧
      List.Chain' R outs := by
  intro qs
  induction qs with
  | nil =>
    intro fg outs fg2 _ _ e
    cases e
    exact ⟨rfl, fun _ => List.Chain.nil, List.chain'_nil⟩
  | cons q qs ih =>
    intro fg outs fg2 hPfg hq e
    unfold capacity_queries at e
    cases hg : sm5703_fg_get_property h fg Psp.CAPACITY q.1 q.2 with
    | none => rw [hg] at e; cases e
    | some r =>
      obtain ⟨rc, v, fg1⟩ := r
      rw [hg] at e
      simp only [] at e
      cases hrec : capacity_queries h fg1 qs with
      | none => rw [hrec] at e; cases e
      | some p =>
        obtain ⟨vs, fg3⟩ := p
        rw [hrec] at e
        cases e
        obtain ⟨hP1, hold, hinit, hR⟩ :=
          hP fg q.1 q.2 _ hPfg (hq q (List.mem_cons_self _ _)) hg
        obtain ⟨hlen, hch, -⟩ :=
          ih fg1 vs _ hP1 (fun q2 hq2 => hq q2 (List.mem_cons_of_mem _ hq2)) hrec
        have hch2 : List.Chain R v vs := by
          have := hch hinit
          rwa [show fg1.capacity_old = v from hold] at this
        refine ⟨by simp [hlen], fun hi => List.Chain.cons (hR hi) hch2, ?_⟩
        exact hch2

theorem queries_total (h : Hdr) :
    ∀ (qs : List (Int × Reads)) (fg : Fuelgauge),
      (∀ q ∈ qs, q.1 ≠ h.SEC_FUELGAUGE_CAPACITY_TYPE_RAW) →
      fg.info.temp_offset ≠ 0 → fg.capacity_max ≠ fg.pdata.capacity_min →
      ∃ outs fg2, capacity_queries h fg qs = some (outs, fg2) := by
  intro qs
  induction qs with
  | nil => intro fg _ _ _; exact ⟨[], fg, rfl⟩
  | cons q qs ih =>
    intro fg hq h0 hdiv
    have hraw := hq q (List.mem_cons_self _ _)
    obtain ⟨r, hg⟩ := query_total h fg q.1 q.2 hraw h0 hdiv
    obtain ⟨-, e1, -, e3, e4, -⟩ := query_facts h fg q.1 q.2 r hraw hg
    obtain ⟨vs, fg3, hrec⟩ := ih r.2.2 (fun q2 hq2 => hq q2 (List.mem_cons_of_mem _ hq2))
      (by rw [e4]; exact h0) (by rw [e3, e1]; exact hdiv)
    refine ⟨r.2.1 :: vs, fg3, ?_⟩
    unfold capacity_queries
    rw [hg]
    simp only []
    rw [hrec]

/-- C1: in every driver state reachable from an initial state (`capacity_old`
0, `initial_update_of_soc` set) by calls of the property getter, the property
setter and dynamic-scale recomputations, `capacity_old` lies in `[0, 100]`;
whatever the chip delivers, a capacity query that is not of the RAW type
returns only the code 0 with a value in `[0, 100]` and leaves `capacity_old`
in `[0, 100]`; and it does return when `capacity_max` differs from
`pdata.capacity_min` and the divisor `temp_offset` of the SOC read is
non-zero. -/
theorem capacity_query_in_range (h : Hdr) (fg : Fuelgauge) (hr : Reachable h fg)
    (val : Int) (rd : Reads) (hraw : val ≠ h.SEC_FUELGAUGE_CAPACITY_TYPE_RAW) :
    (0 ≤ fg.capacity_old ∧ fg.capacity_old ≤ 100) ∧
    (∀ r, sm5703_fg_get_property h fg Psp.CAPACITY val rd = some r →
      r.1 = 0 ∧ 0 ≤ r.2.1 ∧ r.2.1 ≤ 100 ∧
        0 ≤ r.2.2.capacity_old ∧ r.2.2.capacity_old ≤ 100) ∧
    (fg.capacity_max ≠ fg.pdata.capacity_min → fg.info.temp_offset ≠ 0 →
      ∃ r, sm5703_fg_get_property h fg Psp.CAPACITY val rd = some r) := by
  have ho := reachable_capacity_old h fg hr
  refine ⟨ho, fun r hg => ?_, fun hdiv h0 => query_total h fg val rd hraw h0 hdiv⟩
  have hq := query_facts h fg val rd r hraw hg
  exact ⟨hq.1, hq.2.2.2.2.2.2.1 ho⟩

theorem capacity_query_in_range_witness :
    Reachable hdr_sample fg_sample ∧
    (0 : Int) ≠ hdr_sample.SEC_FUELGAUGE_CAPACITY_TYPE_RAW ∧
    ((0 ≤ fg_sample.capacity_old ∧ fg_sample.capacity_old ≤ 100) ∧
      (∀ r, sm5703_fg_get_property hdr_sample fg_sample Psp.CAPACITY 0 (reads_sample 0xFF00)
          = some r →
        r.1 = 0 ∧ 0 ≤ r.2.1 ∧ r.2.1 ≤ 100 ∧
          0 ≤ r.2.2.capacity_old ∧ r.2.2.capacity_old ≤ 100) ∧
      (fg_sample.capacity_max ≠ fg_sample.pdata.capacity_min →
        fg_sample.info.temp_offset ≠ 0 →
        ∃ r, sm5703_fg_get_property hdr_sample fg_sample Psp.CAPACITY 0 (reads_sample 0xFF00)
          = some r)) ∧
    fg_sample.capacity_max ≠ fg_sample.pdata.capacity_min ∧
    fg_sample.info.temp_offset ≠ 0 ∧
    (sm5703_fg_get_property hdr_sample fg_sample Psp.CAPACITY 0 (reads_sample 0xFF00)).map
      (fun r => (r.1, r.2.1, r.2.2.capacity_old)) = some (0, 100, 100) :=
  ⟨Reachable.init fg_sample rfl rfl, by decide,
    capacity_query_in_range hdr_sample fg_sample (Reachable.init fg_sample rfl rfl) 0
      (reads_sample 0xFF00) (by decide),
    by decide, by decide, by decide⟩

/-- C2: with the ATOMIC mode enabled, in every run of consecutive capacity
queries that are not of the RAW type, from any driver state and for any bus
inputs, each returned value differs from the previously returned value by at
most 1 (the first returned value is unconstrained); the run returns a value
for every query when `capacity_max` differs from `pdata.capacity_min` and
`temp_offset` is non-zero. -/
theorem atomic_outputs_step_at_most_one (h : Hdr) (fg : Fuelgauge)
    (qs : List (Int × Reads))
    (hatomic : fg.pdata.capacity_calculation_type &&&
      h.SEC_FUELGAUGE_CAPACITY_TYPE_ATOMIC ≠ 0)
    (hnonraw : ∀ q ∈ qs, q.1 ≠ h.SEC_FUELGAUGE_CAPACITY_TYPE_RAW) :
    (∀ outs fg2, capacity_queries h fg qs = some (outs, fg2) →
      outs.length = qs.length ∧ List.Chain' (fun a b : Int => |b - a| ≤ 1) outs) ∧
    (fg.info.temp_offset ≠ 0 → fg.capacity_max ≠ fg.pdata.capacity_min →
      ∃ outs fg2, capacity_queries h fg qs = some (outs, fg2)) := by
  refine ⟨fun outs fg2 e => ?_, fun h0 hdiv => queries_total h qs fg hnonraw h0 hdiv⟩
  have key := queries_chain h (fun a b : Int => |b - a| ≤ 1)
    (fun g => g.pdata.capacity_calculation_type &&& h.SEC_FUELGAUGE_CAPACITY_TYPE_ATOMIC ≠ 0)
    (fun g val rd r hPg hraw hg => by
      obtain ⟨-, e1, -, -, -, hinit, -, -, ha, -⟩ := query_facts h g val rd r hraw hg
      have hP2 : r.2.2.pdata.capacity_calculation_type &&&
          h.SEC_FUELGAUGE_CAPACITY_TYPE_ATOMIC ≠ 0 := by rw [e1]; exact hPg
      exact ⟨hP2, (ha hPg).1, hinit, (ha hPg).2⟩)
    qs fg outs fg2 hatomic hnonraw e
  exact ⟨key.1, key.2.2⟩

theorem atomic_outputs_step_at_most_one_witness :
    fg_sample.pdata.capacity_calculation_type &&&
      hdr_sample.SEC_FUELGAUGE_CAPACITY_TYPE_ATOMIC ≠ 0 ∧
    (∀ q ∈ [((0 : Int), reads_sample 0x6400), (0, reads_sample 0x0a00),
        (0, reads_sample 0x6400), (0, reads_sample (-5))],
      q.1 ≠ hdr_sample.SEC_FUELGAUGE_CAPACITY_TYPE_RAW) ∧
    ((∀ outs fg2, capacity_queries hdr_sample fg_sample
          [(0, reads_sample 0x6400), (0, reads_sample 0x0a00),
            (0, reads_sample 0x6400), (0, reads_sample (-5))] = some (outs, fg2) →
        outs.length = 4 ∧ List.Chain' (fun a b : Int => |b - a| ≤ 1) outs) ∧
      (fg_sample.info.temp_offset ≠ 0 → fg_sample.capacity_max ≠ fg_sample.pdata.capacity_min →
        ∃ outs fg2, capacity_queries hdr_sample fg_sample
          [(0, reads_sample 0x6400), (0, reads_sample 0x0a00),
            (0, reads_sample 0x6400), (0, reads_sample (-5))] = some (outs, fg2))) ∧
    (capacity_queries hdr_sample fg_sample
        [(0, reads_sample 0x6400), (0, reads_sample 0x0a00),
          (0, reads_sample 0x6400), (0, reads_sample (-5))]).map Prod.fst
      = some [100, 99, 99, 98] :=
  ⟨by decide, by decide,
    atomic_outputs_step_at_most_one hdr_sample fg_sample
      [(0, reads_sample 0x6400), (0, reads_sample 0x0a00),
        (0, reads_sample 0x6400), (0, reads_sample (-5))] (by decide) (by decide),
    by decide⟩

/-- C3: with the SKIP_ABNORMAL mode enabled and `is_charging` false, in every
run of consecutive capacity queries that are not of the RAW type, from any
driver state and for any bus inputs, whether or not the ATOMIC mode is enabled,
the returned values are non-increasing from the first one on; the run returns
a value for every query when `capacity_max` differs from `pdata.capacity_min`
and `temp_offset` is non-zero. -/
theorem skip_abnormal_outputs_non_increasing (h : Hdr) (fg : Fuelgauge)
    (qs : List (Int × Reads))
    (hskip : fg.pdata.capacity_calculation_type &&&
      h.SEC_FUELGAUGE_CAPACITY_TYPE_SKIP_ABNORMAL ≠ 0)
    (hcharging : fg.is_charging = false)
    (hnonraw : ∀ q ∈ qs, q.1 ≠ h.SEC_FUELGAUGE_CAPACITY_TYPE_RAW) :
    (∀ outs fg2, capacity_queries h fg qs = some (outs, fg2) →
      outs.length = qs.length ∧ List.Chain' (fun a b : Int => b ≤ a) outs ∧
      fg2.is_charging = false) ∧
    (fg.info.temp_offset ≠ 0 → fg.capacity_max ≠ fg.pdata.capacity_min →
      ∃ outs fg2, capacity_queries h fg qs = some (outs, fg2)) := by
  refine ⟨fun outs fg2 e => ?_, fun h0 hdiv => queries_total h qs fg hnonraw h0 hdiv⟩
  have key := queries_chain h (fun a b : Int => b ≤ a)
    (fun g => g.pdata.capacity_calculation_type &&&
        h.SEC_FUELGAUGE_CAPACITY_TYPE_SKIP_ABNORMAL ≠ 0 ∧ g.is_charging = false)
    (fun g val rd r hPg hraw hg => by
      obtain ⟨-, e1, e2, -, -, hinit, -, -, -, hs⟩ := query_facts h g val rd r hraw hg
      have hP2 : r.2.2.pdata.capacity_calculation_type &&&
          h.SEC_FUELGAUGE_CAPACITY_TYPE_SKIP_ABNORMAL ≠ 0 := by rw [e1]; exact hPg.1
      exact ⟨⟨hP2, e2.trans hPg.2⟩, (hs hPg.1).1, hinit,
        fun hi => (hs hPg.1).2 hi hPg.2⟩)
    qs fg outs fg2 ⟨hskip, hcharging⟩ hnonraw e
  refine ⟨key.1, key.2.2, ?_⟩
  have hch : ∀ (qs : List (Int × Reads)) (g : Fuelgauge) (outs : List Int) (g2 : Fuelgauge),
      (∀ q ∈ qs, q.1 ≠ h.SEC_FUELGAUGE_CAPACITY_TYPE_RAW) →
      capacity_queries h g qs = some (outs, g2) → g2.is_charging = g.is_charging := by
    intro qs
    induction qs with
    | nil => intro g outs g2 _ e; cases e; rfl
    | cons q qs ih =>
      intro g outs g2 hq e
      unfold capacity_queries at e
      cases hg : sm5703_fg_get_property h g Psp.CAPACITY q.1 q.2 with
      | none => rw [hg] at e; cases e
      | some r =>
        obtain ⟨rc, v, g1⟩ := r
        rw [hg] at e
        simp only [] at e
        cases hrec : capacity_queries h g1 qs with
        | none => rw [hrec] at e; cases e
        | some p =>
          obtain ⟨vs, g3⟩ := p
          rw [hrec] at e
          cases e
          have e2 := (query_facts h g q.1 q.2 _ (hq q (List.mem_cons_self _ _)) hg).2.2.1
          rw [ih g1 vs _ (fun q2 hq2 => hq q2 (List.mem_cons_of_mem _ hq2)) hrec]
          exact e2
  rw [hch qs fg outs fg2 hnonraw e]
  exact hcharging

theorem skip_abnormal_outputs_non_increasing_witness :
    fg_sample.pdata.capacity_calculation_type &&&
      hdr_sample.SEC_FUELGAUGE_CAPACITY_TYPE_SKIP_ABNORMAL ≠ 0 ∧
    fg_sample.is_charging = false ∧
    (∀ q ∈ [((0 : Int), reads_sample 0x3200), (0, reads_sample 0x6400),
        (0, reads_sample 0x0a00)],
      q.1 ≠ hdr_sample.SEC_FUELGAUGE_CAPACITY_TYPE_RAW) ∧
    ((∀ outs fg2, capacity_queries hdr_sample fg_sample
          [(0, reads_sample 0x3200), (0, reads_sample 0x6400), (0, reads_sample 0x0a00)]
          = some (outs, fg2) →
        outs.length = 3 ∧ List.Chain' (fun a b : Int => b ≤ a) outs ∧
        fg2.is_charging = false) ∧
      (fg_sample.info.temp_offset ≠ 0 → fg_sample.capacity_max ≠ fg_sample.pdata.capacity_min →
        ∃ outs fg2, capacity_queries hdr_sample fg_sample
          [(0, reads_sample 0x3200), (0, reads_sample 0x6400), (0, reads_sample 0x0a00)]
          = some (outs, fg2))) ∧
    (capacity_queries hdr_sample fg_sample
        [(0, reads_sample 0x3200), (0, reads_sample 0x6400), (0, reads_sample 0x0a00)]).map
      Prod.fst = some [52, 52, 51] :=
  ⟨by decide, rfl, by decide,
    skip_abnormal_outputs_non_increasing hdr_sample fg_sample
      [(0, reads_sample 0x3200), (0, reads_sample 0x6400), (0, reads_sample 0x0a00)]
      (by decide) rfl (by decide),
    by decide⟩

/-- C4: `sec_fg_calculate_dynamic_scale` samples the raw SOC `s` (the value
`fg_get_soc` computes from the SOC register read, in 0.1% units) and, for
every `pdata.capacity_max` `M` and margin `m ≥ 0`, stores
`capacity_max = (clamp(s, M - m, M + m) * 99) / 100` with truncating division,
sets `capacity_old` to 100 and returns the new `capacity_max`; the SOC read
returns when its divisor `temp_offset` is non-zero. -/
theorem dynamic_scale_spec (h : Hdr) (fg : Fuelgauge) (rd : Reads)
    (h0 : fg.info.temp_offset ≠ 0) (hm : 0 ≤ fg.pdata.capacity_max_margin) :
    ∃ fg2, sec_fg_calculate_dynamic_scale h fg rd = some (fg2.capacity_max, fg2) ∧
      (fg_get_soc h fg rd.soc).map Prod.fst = some (fg_get_soc_value rd.soc.soc) ∧
      fg2.capacity_max =
        ((max (fg.pdata.capacity_max - fg.pdata.capacity_max_margin)
            (min (fg_get_soc_value rd.soc.soc)
              (fg.pdata.capacity_max + fg.pdata.capacity_max_margin))) * 99).tdiv 100 ∧
      fg2.capacity_old = 100 := by
  obtain ⟨fg2, -, e⟩ := dynamic_scale_eq h fg rd h0
  obtain ⟨fg3, e3, -⟩ := fg_get_soc_some h fg rd.soc h0
  have hc : (if fg_get_soc_value rd.soc.soc
                < fg.pdata.capacity_max - fg.pdata.capacity_max_margin then
              fg.pdata.capacity_max - fg.pdata.capacity_max_margin
            else if fg_get_soc_value rd.soc.soc
                > fg.pdata.capacity_max + fg.pdata.capacity_max_margin then
              fg.pdata.capacity_max + fg.pdata.capacity_max_margin
            else fg_get_soc_value rd.soc.soc)
      = max (fg.pdata.capacity_max - fg.pdata.capacity_max_margin)
          (min (fg_get_soc_value rd.soc.soc)
            (fg.pdata.capacity_max + fg.pdata.capacity_max_margin)) := by
    simp only [max_def, min_def]
    split_ifs <;> omega
  rw [hc] at e
  exact ⟨{ fg2 with capacity_max := _, capacity_old := 100 }, e, by rw [e3]; rfl, rfl, rfl⟩

theorem dynamic_scale_spec_witness :
    fg_sample.info.temp_offset ≠ 0 ∧ 0 ≤ fg_sample.pdata.capacity_max_margin ∧
    (∃ fg2, sec_fg_calculate_dynamic_scale hdr_sample fg_sample (reads_sample 0x6400)
        = some (fg2.capacity_max, fg2) ∧
      (fg_get_soc hdr_sample fg_sample (reads_sample 0x6400).soc).map Prod.fst
        = some (fg_get_soc_value (reads_sample 0x6400).soc.soc) ∧
      fg2.capacity_max =
        ((max (fg_sample.pdata.capacity_max - fg_sample.pdata.capacity_max_margin)
            (min (fg_get_soc_value (reads_sample 0x6400).soc.soc)
              (fg_sample.pdata.capacity_max + fg_sample.pdata.capacity_max_margin))) * 99).tdiv
          100 ∧
      fg2.capacity_old = 100) ∧
    fg_sample.pdata.capacity_max = 950 ∧ fg_sample.pdata.capacity_max_margin = 50 ∧
    fg_get_soc_value (reads_sample 0x6400).soc.soc = 1000 ∧
    (sec_fg_calculate_dynamic_scale hdr_sample fg_sample (reads_sample 0x6400)).map
      (fun r => (r.1, r.2.capacity_max, r.2.capacity_old)) = some (990, 990, 100) :=
  ⟨by decide, by decide,
    dynamic_scale_spec hdr_sample fg_sample (reads_sample 0x6400) (by decide) (by decide),
    rfl, rfl, by decide, by decide⟩

/-- C5: a capacity query whose request value is the RAW type returns 10 times
the value `fg_get_soc` computes from the SOC register read, whatever its size,
and leaves `capacity_old`, `capacity_max` and `initial_update_of_soc`
unchanged; the SOC read returns when its divisor `temp_offset` is non-zero. -/
theorem raw_query_untouched (h : Hdr) (fg : Fuelgauge) (rd : Reads)
    (h0 : fg.info.temp_offset ≠ 0) :
    ∃ fg2, sm5703_fg_get_property h fg Psp.CAPACITY h.SEC_FUELGAUGE_CAPACITY_TYPE_RAW rd
        = some (0, 10 * fg_get_soc_value rd.soc.soc, fg2) ∧
      (fg_get_soc h fg rd.soc).map Prod.fst = some (fg_get_soc_value rd.soc.soc) ∧
      fg2.capacity_old = fg.capacity_old ∧ fg2.capacity_max = fg.capacity_max ∧
      fg2.initial_update_of_soc = fg.initial_update_of_soc := by
  obtain ⟨fg2, e, hf⟩ := get_capacity_raw h fg rd h0
  obtain ⟨fg3, e3, -⟩ := fg_get_soc_some h fg rd.soc h0
  refine ⟨fg2, by rw [e, mul_comm], by rw [e3]; rfl, congrArg (fun s => s.2.1) hf,
    congrArg (fun s => s.2.2.1) hf, congrArg (fun s => s.2.2.2.1) hf⟩

theorem raw_query_untouched_witness :
    fg_sample.info.temp_offset ≠ 0 ∧
    (∃ fg2, sm5703_fg_get_property hdr_sample fg_sample Psp.CAPACITY
          hdr_sample.SEC_FUELGAUGE_CAPACITY_TYPE_RAW (reads_sample 0xFF80)
        = some (0, 10 * fg_get_soc_value (reads_sample 0xFF80).soc.soc, fg2) ∧
      (fg_get_soc hdr_sample fg_sample (reads_sample 0xFF80).soc).map Prod.fst
        = some (fg_get_soc_value (reads_sample 0xFF80).soc.soc) ∧
      fg2.capacity_old = fg_sample.capacity_old ∧ fg2.capacity_max = fg_sample.capacity_max ∧
      fg2.initial_update_of_soc = fg_sample.initial_update_of_soc) ∧
    (sm5703_fg_get_property hdr_sample fg_sample Psp.CAPACITY
        hdr_sample.SEC_FUELGAUGE_CAPACITY_TYPE_RAW (reads_sample 0xFF80)).map
      (fun r => (r.1, r.2.1)) = some (0, 25550) :=
  ⟨by decide, raw_query_untouched hdr_sample fg_sample (reads_sample 0xFF80) (by decide),
    by decide⟩

/-- C6, as stated, fails: with `capacity_max` = 50 below `capacity_min` = 100,
an input of 200 is mapped to -2000 while `max(0, ...)` is 0, and an input of 0
is mapped to 0 while `max(0, ...)` is 2000. -/
theorem scaled_capacity_not_max_when_inverted :
    fg_inverted.capacity_max ≠ fg_inverted.pdata.capacity_min ∧
    sec_fg_get_scaled_capacity fg_inverted 200 = some (-2000) ∧
    max 0 (((200 - fg_inverted.pdata.capacity_min) * 1000).tdiv
      (fg_inverted.capacity_max - fg_inverted.pdata.capacity_min)) = 0 ∧
    sec_fg_get_scaled_capacity fg_inverted 0 = some 0 ∧
    max 0 (((0 - fg_inverted.pdata.capacity_min) * 1000).tdiv
      (fg_inverted.capacity_max - fg_inverted.pdata.capacity_min)) = 2000 := by
  decide

/-- C6, amended: for every `capacity_min` and every `capacity_max` greater than
`capacity_min`, `sec_fg_get_scaled_capacity` maps every input `val` to
`max(0, (val - capacity_min) * 1000 / (capacity_max - capacity_min))`. -/
theorem scaled_capacity_spec (fg : Fuelgauge) (val : Int)
    (hlt : fg.pdata.capacity_min < fg.capacity_max) :
    sec_fg_get_scaled_capacity fg val =
      some (max 0 (((val - fg.pdata.capacity_min) * 1000).tdiv
        (fg.capacity_max - fg.pdata.capacity_min))) := by
  unfold sec_fg_get_scaled_capacity
  have hd : 0 ≤ fg.capacity_max - fg.pdata.capacity_min := by omega
  by_cases hv : val < fg.pdata.capacity_min
  · rw [if_pos hv]
    have hn : ((val - fg.pdata.capacity_min) * 1000).tdiv
        (fg.capacity_max - fg.pdata.capacity_min) ≤ 0 := by
      have h1 : 0 ≤ ((fg.pdata.capacity_min - val) * 1000).tdiv
          (fg.capacity_max - fg.pdata.capacity_min) := Int.tdiv_nonneg (by omega) hd
      have h2 : (val - fg.pdata.capacity_min) * 1000
          = -((fg.pdata.capacity_min - val) * 1000) := by ring
      rw [h2, Int.neg_tdiv]
      omega
    rw [max_eq_left hn]
  · rw [if_neg hv, if_neg (by omega)]
    have hp : 0 ≤ ((val - fg.pdata.capacity_min) * 1000).tdiv
        (fg.capacity_max - fg.pdata.capacity_min) := Int.tdiv_nonneg (by omega) hd
    rw [max_eq_right hp]

theorem scaled_capacity_spec_witness :
    fg_sample.pdata.capacity_min < fg_sample.capacity_max ∧
    sec_fg_get_scaled_capacity fg_sample 500 =
      some (max 0 (((500 - fg_sample.pdata.capacity_min) * 1000).tdiv
        (fg_sample.capacity_max - fg_sample.pdata.capacity_min))) ∧
    sec_fg_get_scaled_capacity fg_sample 500 = some 526 :=
  ⟨by decide, scaled_capacity_spec fg_sample 500 (by decide), by decide⟩

theorem fg_get_soc_decode_witness :
    fg_sample.info.temp_offset ≠ 0 ∧
    ((fg_get_soc hdr_sample fg_sample { (reads_sample 0).soc with soc := ((0x6480 : Nat) : Int) }).map
        Prod.fst
        = some ((((0x6480 >>> 8) &&& 0xFF) * 10 + ((0x6480 &&& 0xFF) * 10) / 256 : Nat) : Int) ∧
      ((0x6480 >>> 8) &&& 0xFF) * 10 + ((0x6480 &&& 0xFF) * 10) / 256 ≤ 2559 ∧
      (∀ err : Int, err < 0 →
        (fg_get_soc hdr_sample fg_sample { (reads_sample 0).soc with soc := err }).map Prod.fst
          = some 500)) ∧
    (fg_get_soc hdr_sample fg_sample (reads_sample 0x6480).soc).map Prod.fst = some 1005 ∧
    (fg_get_soc hdr_sample fg_sample (reads_sample (-5)).soc).map Prod.fst = some 500 :=
  ⟨by decide, fg_get_soc_decode hdr_sample fg_sample (reads_sample 0).soc 0x6480 (by decide),
    by decide, by decide⟩

/-! ## Measurement engine: failed reads and smoothing -/

/-- C11: when the register read fails (negative result), `fg_get_vbat` and
`fg_get_ocv` return 4000 mV and `fg_get_curr` returns 0 mA, and that default
is stored as the last-read value (`batt_voltage`, `batt_ocv`,
`batt_current`). -/
theorem failed_read_defaults (fg : Fuelgauge) (ret : Int) (hfail : ret < 0) :
    (fg_get_vbat fg ret).1 = 4000 ∧ (fg_get_vbat fg ret).2.info.batt_voltage = 4000 ∧
    (fg_get_ocv fg ret).1 = 4000 ∧ (fg_get_ocv fg ret).2.info.batt_ocv = 4000 ∧
    (fg_get_curr fg ret).1 = 0 ∧ (fg_get_curr fg ret).2.info.batt_current = 0 := by
  simp [fg_get_vbat, fg_get_ocv, fg_get_curr, hfail]

theorem failed_read_defaults_witness :
    (-5 : Int) < 0 ∧
    ((fg_get_vbat fg_sample (-5)).1 = 4000 ∧
      (fg_get_vbat fg_sample (-5)).2.info.batt_voltage = 4000 ∧
      (fg_get_ocv fg_sample (-5)).1 = 4000 ∧ (fg_get_ocv fg_sample (-5)).2.info.batt_ocv = 4000 ∧
      (fg_get_curr fg_sample (-5)).1 = 0 ∧
      (fg_get_curr fg_sample (-5)).2.info.batt_current = 0) :=
  ⟨by decide, failed_read_defaults fg_sample (-5) (by decide)⟩

theorem vbat_avg_eq (fg : Fuelgauge) (ret : Int) :
    (fg_get_vbat fg ret).2.info.batt_avgvoltage
      = smoothing_update fg.info.batt_avgvoltage (fg_get_vbat fg ret).1 := rfl

theorem curr_avg_eq (fg : Fuelgauge) (ret : Int) :
    (fg_get_curr fg ret).2.info.batt_avgcurrent
      = smoothing_update fg.info.batt_avgcurrent (fg_get_curr fg ret).1 := rfl

theorem tdiv5_spec (x : Int) :
    (0 ≤ x → x.tdiv 5 = x / 5) ∧ (x < 0 → x.tdiv 5 = -((-x) / 5)) := by
  constructor
  · intro hx
    exact Int.tdiv_eq_ediv hx (by decide)
  · intro hx
    have h1 : (-x).tdiv 5 = (-x) / 5 := Int.tdiv_eq_ediv (by omega) (by decide)
    have h2 : (-x).tdiv 5 = -(x.tdiv 5) := Int.neg_tdiv x 5
    omega

theorem smoothing_update_fixed (v : Int) : smoothing_update v v = v := by
  unfold smoothing_update
  have e : v + 4 * v = 5 * v := by ring
  rw [e]
  exact Int.mul_tdiv_cancel_left v (by decide)

theorem smoothing_update_near (a v : Int) :
    ((a - v).natAbs ≤ 1 → (smoothing_update a v - v).natAbs ≤ 1) ∧
    (2 ≤ (a - v).natAbs → (smoothing_update a v - v).natAbs < (a - v).natAbs) := by
  unfold smoothing_update
  obtain ⟨hp, hn⟩ := tdiv5_spec (a + 4 * v)
  by_cases hx : 0 ≤ a + 4 * v
  · rw [hp hx]; constructor <;> intro _ <;> omega
  · rw [hn (by omega)]; constructor <;> intro _ <;> omega

theorem smoothing_stays_near (v : Int) :
    ∀ (m : Nat) (a : Int), (a - v).natAbs ≤ 1 →
      ((fun x => smoothing_update x v)^[m] a - v).natAbs ≤ 1 := by
  intro m
  induction m with
  | zero => intro a ha; exact ha
  | succ m ih =>
    intro a ha
    rw [Function.iterate_succ_apply]
    exact ih _ ((smoothing_update_near a v).1 ha)

theorem smoothing_reaches_near (v : Int) :
    ∀ (k : Nat) (a : Int), (a - v).natAbs ≤ k + 1 →
      ∀ m, k ≤ m → ((fun x => smoothing_update x v)^[m] a - v).natAbs ≤ 1 := by
  intro k
  induction k with
  | zero => intro a ha m _; exact smoothing_stays_near v m a (by omega)
  | succ k ih =>
    intro a ha m hm
    obtain ⟨m2, rfl⟩ : ∃ m2, m = m2 + 1 := ⟨m - 1, by omega⟩
    rw [Function.iterate_succ_apply]
    apply ih _ _ m2 (by omega)
    have hs := smoothing_update_near a v
    by_cases h2 : 2 ≤ (a - v).natAbs
    · have := hs.2 h2; omega
    · have := hs.1 (by omega); omega

theorem smoothing_update_above (a v : Int) (hv : 0 ≤ v) (ha : v ≤ a) :
    v ≤ smoothing_update a v ∧
    (smoothing_update a v - v).natAbs ≤ (a - v).natAbs - 1 := by
  unfold smoothing_update
  rw [(tdiv5_spec (a + 4 * v)).1 (by omega)]
  omega

theorem smoothing_update_below (a v : Int) (hv : v ≤ 0) (ha : a ≤ v) :
    smoothing_update a v ≤ v ∧
    (smoothing_update a v - v).natAbs ≤ (a - v).natAbs - 1 := by
  unfold smoothing_update
  obtain ⟨hp, hn⟩ := tdiv5_spec (a + 4 * v)
  by_cases hx : 0 ≤ a + 4 * v
  · rw [hp hx]; omega
  · rw [hn (by omega)]; omega

theorem smoothing_reaches_exact (v : Int) :
    ∀ (k : Nat) (a : Int), ((0 ≤ v ∧ v ≤ a) ∨ (a ≤ v ∧ v ≤ 0)) → (a - v).natAbs ≤ k →
      ∀ m, k ≤ m → (fun x => smoothing_update x v)^[m] a = v := by
  intro k
  induction k with
  | zero =>
    intro a _ ha m _
    have e : a = v := by omega
    rw [e]
    exact @Function.iterate_fixed _ (fun x => smoothing_update x v) v (smoothing_update_fixed v) m
  | succ k ih =>
    intro a hside ha m hm
    obtain ⟨m2, rfl⟩ : ∃ m2, m = m2 + 1 := ⟨m - 1, by omega⟩
    rw [Function.iterate_succ_apply]
    rcases hside with ⟨hv, hav⟩ | ⟨hav, hv⟩
    · have hs := smoothing_update_above a v hv hav
      exact ih _ (Or.inl ⟨hv, hs.1⟩) (by omega) m2 (by omega)
    · have hs := smoothing_update_below a v hv hav
      exact ih _ (Or.inr ⟨hs.1, hv⟩) (by omega) m2 (by omega)

/-- C12, as stated, fails: with identical readings of 4000 and a starting
average of 3999 the update `(avg + 4 * v) / 5` returns 3999 again, so the
average stays at 3999 and never reaches 4000. -/
theorem smoothing_stuck_below :
    smoothing_update 3999 4000 = 3999 ∧
    ¬ ∃ n : Nat, (fun x => smoothing_update x 4000)^[n] 3999 = 4000 := by
  have hfix : smoothing_update 3999 4000 = 3999 := by decide
  refine ⟨hfix, ?_⟩
  rintro ⟨n, hn⟩
  rw [@Function.iterate_fixed _ (fun x => smoothing_update x 4000) 3999 hfix n] at hn
  exact absurd hn (by decide)

/-- C12, amended: the update stored by `fg_get_vbat` and `fg_get_curr` is
`avg := (avg + 4 * v) / 5`; `v` is a fixed point of it; for every reading value
`v` and every starting average `a`, repeated updates with identical readings
`v` bring the average within 1 of `v` after finitely many readings, where it
stays; and it reaches `v` itself, and stays there, when `a` lies on the side
of `v` away from zero (`0 ≤ v ≤ a` or `a ≤ v ≤ 0`). -/
theorem smoothing_converges_within_one (fg : Fuelgauge) (ret : Int) (a v : Int) :
    (fg_get_vbat fg ret).2.info.batt_avgvoltage
      = smoothing_update fg.info.batt_avgvoltage (fg_get_vbat fg ret).1 ∧
    (fg_get_curr fg ret).2.info.batt_avgcurrent
      = smoothing_update fg.info.batt_avgcurrent (fg_get_curr fg ret).1 ∧
    smoothing_update v v = v ∧
    (∃ n : Nat, ∀ m, n ≤ m → |(fun x => smoothing_update x v)^[m] a - v| ≤ 1) ∧
    (((0 ≤ v ∧ v ≤ a) ∨ (a ≤ v ∧ v ≤ 0)) →
      ∃ n : Nat, ∀ m, n ≤ m → (fun x => smoothing_update x v)^[m] a = v) := by
  refine ⟨rfl, rfl, smoothing_update_fixed v, ⟨(a - v).natAbs, fun m hm => ?_⟩,
    fun hside => ⟨(a - v).natAbs, smoothing_reaches_exact v _ a hside (le_refl _)⟩⟩
  have := smoothing_reaches_near v (a - v).natAbs a (by omega) m hm
  rw [abs_le]
  omega

theorem smoothing_converges_within_one_witness :
    ((fg_get_vbat fg_sample 0x0400).2.info.batt_avgvoltage
        = smoothing_update fg_sample.info.batt_avgvoltage (fg_get_vbat fg_sample 0x0400).1 ∧
      (fg_get_curr fg_sample 0x0400).2.info.batt_avgcurrent
        = smoothing_update fg_sample.info.batt_avgcurrent (fg_get_curr fg_sample 0x0400).1 ∧
      smoothing_update 4000 4000 = 4000 ∧
      (∃ n : Nat, ∀ m, n ≤ m → |(fun x => smoothing_update x 4000)^[m] 4100 - 4000| ≤ 1) ∧
      (((0 ≤ (4000 : Int) ∧ (4000 : Int) ≤ 4100) ∨ ((4100 : Int) ≤ 4000 ∧ (4000 : Int) ≤ 0)) →
        ∃ n : Nat, ∀ m, n ≤ m → (fun x => smoothing_update x 4000)^[m] 4100 = 4000)) ∧
    ((0 ≤ (4000 : Int) ∧ (4000 : Int) ≤ 4100) ∨ ((4100 : Int) ≤ 4000 ∧ (4000 : Int) ≤ 0)) ∧
    (fun x => smoothing_update x 4000)^[3] 4100 = 4000 :=
  ⟨smoothing_converges_within_one fg_sample 0x0400 4100 4000, Or.inl (by decide), by decide⟩

/-- C13, as stated, fails: with previous average 0 and new sample 4000 both
filters store 3200, not `(4 * 0 + 4000) / 5 = 800`. -/
theorem smoothing_weight_counterexample :
    fg_sample.info.batt_avgvoltage = 0 ∧ (fg_get_vbat fg_sample 0x0400).1 = 4000 ∧
    (fg_get_vbat fg_sample 0x0400).2.info.batt_avgvoltage = 3200 ∧
    (4 * fg_sample.info.batt_avgvoltage + (fg_get_vbat fg_sample 0x0400).1).tdiv 5 = 800 ∧
    fg_sample.info.batt_avgcurrent = 0 ∧ (fg_get_curr fg_sample 0x0400).1 = 4000 ∧
    (fg_get_curr fg_sample 0x0400).2.info.batt_avgcurrent = 3200 ∧
    (4 * fg_sample.info.batt_avgcurrent + (fg_get_curr fg_sample 0x0400).1).tdiv 5 = 800 := by
  decide

/-- C13, amended: the voltage and current smoothing filter gives weight 4/5 to
the new sample and 1/5 to the previous average: after a read with new sample
`x` and previous average `a` the stored average is `(a + 4 * x) / 5`, the
stored last-read value is `x`, and the function returns the instantaneous
value `x`. -/
theorem smoothing_weights (fg : Fuelgauge) (ret : Int) :
    (fg_get_vbat fg ret).2.info.batt_avgvoltage
      = (fg.info.batt_avgvoltage + 4 * (fg_get_vbat fg ret).1).tdiv 5 ∧
    (fg_get_vbat fg ret).2.info.batt_voltage = (fg_get_vbat fg ret).1 ∧
    (fg_get_curr fg ret).2.info.batt_avgcurrent
      = (fg.info.batt_avgcurrent + 4 * (fg_get_curr fg ret).1).tdiv 5 ∧
    (fg_get_curr fg ret).2.info.batt_current = (fg_get_curr fg ret).1 :=
  ⟨rfl, rfl, rfl, rfl⟩

/-! ## Error handling -/

/-- C14: with a calibration record whose `temp_offset` is zero, and so with
the all-zero record, the division `temp_cal_fact / temp_offset` of `fg_get_soc`
has a zero divisor for every chip register content: the SOC read, and with it
every capacity query, has no result. -/
theorem fg_get_soc_zero_record (h : Hdr) (fg : Fuelgauge) (val : Int) (rd : Reads) :
    fg_zero.info.temp_offset = 0 ∧
    fg_get_soc h fg_zero rd.soc = none ∧
    sm5703_fg_get_property h fg_zero Psp.CAPACITY val rd = none ∧
    fg_get_soc h { fg with info := { fg.info with temp_offset := 0 } } rd.soc = none :=
  ⟨rfl, fg_get_soc_none h fg_zero rd.soc rfl, get_capacity_none h fg_zero val rd rfl,
    fg_get_soc_none h _ rd.soc rfl⟩

/-- C15: `sec_hal_fg_init` returns true whatever the device-ID read returns;
when that read fails (result -5) `sm5703_fg_init` returns false and leaves
`is_FG_initialised` at 0, but `sec_hal_fg_init` still returns true and the
probe goes on to return 0. -/
theorem sec_hal_fg_init_ignores_device_id (h : Hdr) (fg : Fuelgauge) (rd : InitReads) :
    (sec_hal_fg_init h fg rd).1 = true ∧
    (sm5703_fg_init h fg false { rd with device_id := -5 }).1 = false ∧
    (sec_hal_fg_init h fg { rd with device_id := -5 }).1 = true ∧
    (sec_hal_fg_init h fg { rd with device_id := -5 }).2.info.is_FG_initialised = 0 ∧
    (sm5703_fuelgauge_probe hdr_sample fg_sample init_reads_failed
      (reads_sample 0x3200) (reads_sample 0x3200)).map
        (fun r => (r.1, r.2.info.is_FG_initialised, r.2.initial_update_of_soc))
      = some (0, 0, true) := by
  refine ⟨rfl, ?_, rfl, ?_, by decide⟩
  · simp [sm5703_fg_init]
  · simp [sec_hal_fg_init, sm5703_fg_init]

theorem get_capacity_code (h : Hdr) (fg : Fuelgauge) (val : Int) (rd : Reads)
    (r : Int × Int × Fuelgauge)
    (e : sm5703_fg_get_property h fg Psp.CAPACITY val rd = some r) : r.1 = 0 := by
  by_cases hraw : val = h.SEC_FUELGAUGE_CAPACITY_TYPE_RAW
  · subst hraw
    by_cases h0 : fg.info.temp_offset = 0
    · rw [get_capacity_none h fg _ rd h0] at e; cases e
    · obtain ⟨fg2, e2, -⟩ := get_capacity_raw h fg rd h0
      rw [e2] at e
      cases e
      rfl
  · exact (query_facts h fg val rd r hraw e).1

theorem get_capacity_returns (h : Hdr) (fg : Fuelgauge) (val : Int) (rd : Reads)
    (h0 : fg.info.temp_offset ≠ 0)
    (hdiv : val = h.SEC_FUELGAUGE_CAPACITY_TYPE_RAW ∨
      fg.capacity_max ≠ fg.pdata.capacity_min) :
    ∃ r, sm5703_fg_get_property h fg Psp.CAPACITY val rd = some r := by
  by_cases hraw : val = h.SEC_FUELGAUGE_CAPACITY_TYPE_RAW
  · subst hraw
    obtain ⟨fg2, e2, -⟩ := get_capacity_raw h fg rd h0
    exact ⟨_, e2⟩
  · rcases hdiv with hd | hd
    · exact absurd hd hraw
    · exact query_total h fg val rd hraw h0 hd

/-- C16, as stated, fails: for the status and charge-full properties
`sm5703_fg_get_property` returns `-ENODATA` (-61 with the sample header
values), not 0. -/
theorem get_property_status_not_success :
    (sm5703_fg_get_property hdr_sample fg_sample Psp.STATUS 0 (reads_sample 0)).map Prod.fst
      = some (-61) ∧
    (sm5703_fg_get_property hdr_sample fg_sample Psp.CHARGE_FULL 0 (reads_sample 0)).map
      Prod.fst = some (-61) := by
  decide

/-- C16, amended: with positive `EINVAL` and `ENODATA`,
`sm5703_fg_get_property` returns 0 for presence, voltage now and average,
current now and average, battery and ambient temperature and
energy-full-design, whatever the bus transactions return; for capacity it
returns 0 whenever the query returns, which it does when `temp_offset` is
non-zero and the request is of the RAW type or `capacity_max` differs from
`pdata.capacity_min`; it returns the negative code `-ENODATA` for status and
charge-full, and the negative code `-EINVAL` for every other property. -/
theorem get_property_return_codes (h : Hdr) (fg : Fuelgauge) (psp : Psp) (val : Int)
    (rd : Reads) (hE : 0 < h.EINVAL) (hD : 0 < h.ENODATA) :
    ((psp = Psp.PRESENT ∨ psp = Psp.VOLTAGE_NOW ∨ psp = Psp.VOLTAGE_AVG ∨
        psp = Psp.CURRENT_NOW ∨ psp = Psp.CURRENT_AVG ∨ psp = Psp.TEMP ∨
        psp = Psp.TEMP_AMBIENT ∨ psp = Psp.ENERGY_FULL_DESIGN) →
      (sm5703_fg_get_property h fg psp val rd).map Prod.fst = some 0) ∧
    (psp = Psp.CAPACITY →
      (∀ r, sm5703_fg_get_property h fg psp val rd = some r → r.1 = 0) ∧
      (fg.info.temp_offset ≠ 0 →
        (val = h.SEC_FUELGAUGE_CAPACITY_TYPE_RAW ∨ fg.capacity_max ≠ fg.pdata.capacity_min) →
        (sm5703_fg_get_property h fg psp val rd).map Prod.fst = some 0)) ∧
    ((psp = Psp.STATUS ∨ psp = Psp.CHARGE_FULL) →
      (sm5703_fg_get_property h fg psp val rd).map Prod.fst = some (-h.ENODATA) ∧
      -h.ENODATA < 0) ∧
    ((psp = Psp.HEALTH ∨ psp = Psp.ONLINE ∨ psp = Psp.ENERGY_NOW ∨ ∃ n, psp = Psp.OTHER n) →
      (sm5703_fg_get_property h fg psp val rd).map Prod.fst = some (-h.EINVAL) ∧
      -h.EINVAL < 0) := by
  refine ⟨?_, ?_, ?_, ?_⟩
  · intro hp
    rcases hp with rfl | rfl | rfl | rfl | rfl | rfl | rfl | rfl
    · simp [sm5703_fg_get_property, sec_hal_fg_get_property]
    · simp [sm5703_fg_get_property, sec_hal_fg_get_property]
    · simp only [sm5703_fg_get_property, sec_hal_fg_get_property]
      split_ifs <;> first | contradiction | simp
    · simp [sm5703_fg_get_property, sec_hal_fg_get_property]
    · simp [sm5703_fg_get_property, sec_hal_fg_get_property]
    · simp [sm5703_fg_get_property, sec_hal_fg_get_property]
    · simp [sm5703_fg_get_property, sec_hal_fg_get_property]
    · simp [sm5703_fg_get_property]
  · intro hp
    subst hp
    refine ⟨fun r e => get_capacity_code h fg val rd r e, fun h0 hdiv => ?_⟩
    obtain ⟨r, e⟩ := get_capacity_returns h fg val rd h0 hdiv
    rw [e, Option.map_some', get_capacity_code h fg val rd r e]
  · intro hp
    rcases hp with rfl | rfl
    · exact ⟨by simp [sm5703_fg_get_property], by omega⟩
    · exact ⟨by simp [sm5703_fg_get_property], by omega⟩
  · intro hp
    rcases hp with rfl | rfl | rfl | ⟨n, rfl⟩
    · exact ⟨by simp [sm5703_fg_get_property], by omega⟩
    · exact ⟨by simp [sm5703_fg_get_property], by omega⟩
    · exact ⟨by simp [sm5703_fg_get_property, sec_hal_fg_get_property], by omega⟩
    · exact ⟨by simp [sm5703_fg_get_property], by omega⟩

theorem get_property_return_codes_witness :
    (0 : Int) < hdr_sample.EINVAL ∧ (0 : Int) < hdr_sample.ENODATA ∧
    (sm5703_fg_get_property hdr_sample fg_sample Psp.VOLTAGE_NOW 0 (reads_sample 0)).map
      Prod.fst = some 0 ∧
    ((sm5703_fg_get_property hdr_sample fg_sample Psp.STATUS 0 (reads_sample 0)).map Prod.fst
        = some (-hdr_sample.ENODATA) ∧ -hdr_sample.ENODATA < 0) ∧
    ((sm5703_fg_get_property hdr_sample fg_sample Psp.ENERGY_NOW 0 (reads_sample 0)).map
        Prod.fst = some (-hdr_sample.EINVAL) ∧ -hdr_sample.EINVAL < 0) ∧
    (sm5703_fg_get_property hdr_sample fg_sample Psp.CAPACITY 0 (reads_sample 0x3200)).map
      Prod.fst = some 0 :=
  ⟨by decide, by decide,
    (get_property_return_codes hdr_sample fg_sample Psp.VOLTAGE_NOW 0 (reads_sample 0)
      (by decide) (by decide)).1 (Or.inr (Or.inl rfl)),
    (get_property_return_codes hdr_sample fg_sample Psp.STATUS 0 (reads_sample 0)
      (by decide) (by decide)).2.2.1 (Or.inl rfl),
    (get_property_return_codes hdr_sample fg_sample Psp.ENERGY_NOW 0 (reads_sample 0)
      (by decide) (by decide)).2.2.2 (Or.inr (Or.inr (Or.inl rfl))),
    ((get_property_return_codes hdr_sample fg_sample Psp.CAPACITY 0 (reads_sample 0x3200)
      (by decide) (by decide)).2.1 rfl).2 (by decide) (Or.inr (by decide))⟩

/-- C17: `sm5703_fuelgauge_resume` leaves the driver state as it is, so
`initial_update_of_soc` is not set by a resume: after a first query that
returned 100, a resume and a query whose clamped whole-percent value is 10
return 99 (one step from `capacity_old`), where a first read returns 10. -/
theorem resume_keeps_initial_update (fg : Fuelgauge) :
    (sm5703_fuelgauge_resume fg).2 = fg ∧
    ((sm5703_fg_get_property hdr_sample fg_sample Psp.CAPACITY 0 (reads_sample 0x6400)).bind
        (fun r => sm5703_fg_get_property hdr_sample (sm5703_fuelgauge_resume r.2.2).2
          Psp.CAPACITY 0 (reads_sample 0x0a00))).map
      (fun r => (r.2.1, r.2.2.capacity_old, r.2.2.initial_update_of_soc))
      = some (99, 99, false) ∧
    ((sm5703_fg_get_property hdr_sample fg_sample Psp.CAPACITY 0 (reads_sample 0x6400)).bind
        (fun r => sm5703_fg_get_property hdr_sample
          { (sm5703_fuelgauge_resume r.2.2).2 with initial_update_of_soc := true }
          Psp.CAPACITY 0 (reads_sample 0x0a00))).map
      (fun r => (r.2.1, r.2.2.capacity_old, r.2.2.initial_update_of_soc))
      = some (10, 10, false) := by
  refine ⟨?_, by decide, by decide⟩
  unfold sm5703_fuelgauge_resume
  split <;> rfl

/-! ## Writers of `capacity_max` -/

theorem hal_capacity_raw_elim (h : Hdr) (fg : Fuelgauge) (rd : Reads)
    (r : Bool × Int × Fuelgauge)
    (e : sec_hal_fg_get_property h fg Psp.CAPACITY h.SEC_FUELGAUGE_CAPACITY_TYPE_RAW rd
      = some r) :
    r.2.1 = fg_get_soc_value rd.soc.soc * 10 ∧ capacity_state r.2.2 = capacity_state fg := by
  by_cases h0 : fg.info.temp_offset = 0
  · rw [hal_capacity_none h fg _ rd h0] at e; cases e
  · obtain ⟨fg2, e2, hf⟩ := hal_capacity_some h fg h.SEC_FUELGAUGE_CAPACITY_TYPE_RAW rd h0
    rw [if_pos rfl] at e2
    rw [e2] at e
    cases e
    exact ⟨rfl, hf⟩

theorem dynamic_scale_in_window (h : Hdr) (fg : Fuelgauge) (rd : Reads) (r : Int × Fuelgauge)
    (hm : 0 ≤ fg.pdata.capacity_max_margin)
    (e : sec_fg_calculate_dynamic_scale h fg rd = some r) :
    r.2.pdata = fg.pdata ∧
    ∃ c, fg.pdata.capacity_max - fg.pdata.capacity_max_margin ≤ c ∧
      c ≤ fg.pdata.capacity_max + fg.pdata.capacity_max_margin ∧
      r.2.capacity_max = (c * 99).tdiv 100 := by
  by_cases h0 : fg.info.temp_offset = 0
  · rw [dynamic_scale_none h fg rd h0] at e; cases e
  · obtain ⟨fg2, hf, e2⟩ := dynamic_scale_eq h fg rd h0
    rw [e2] at e
    cases e
    refine ⟨congrArg (fun s => s.1) hf, _, ?_, ?_, rfl⟩
    · split_ifs <;> omega
    · split_ifs <;> omega

theorem probe_capacity_max (h : Hdr) (fg : Fuelgauge) (rd_init : InitReads)
    (rd_raw rd_scale : Reads) (p : Int × Fuelgauge)
    (hm : 0 ≤ fg.pdata.capacity_max_margin)
    (e : sm5703_fuelgauge_probe h fg rd_init rd_raw rd_scale = some p) :
    (fg_get_soc_value rd_raw.soc.soc ≤ fg.pdata.capacity_max →
      p.2.capacity_max = fg.pdata.capacity_max) ∧
    (fg.pdata.capacity_max < fg_get_soc_value rd_raw.soc.soc →
      ∃ c, fg.pdata.capacity_max - fg.pdata.capacity_max_margin ≤ c ∧
        c ≤ fg.pdata.capacity_max + fg.pdata.capacity_max_margin ∧
        p.2.capacity_max = (c * 99).tdiv 100) := by
  have htail : ∀ X : Fuelgauge,
      (if X.pdata.fuel_alert_soc ≥ 0 then
          (sec_hal_fg_fuelalert_init h X X.pdata.fuel_alert_soc).2 else X).capacity_max
        = X.capacity_max := by
    intro X; split <;> rfl
  have hinit : capacity_state (sec_hal_fg_init h fg rd_init).2 = capacity_state fg := by
    unfold sec_hal_fg_init
    exact init_capacity_state h fg false rd_init
  have hpd : (sec_hal_fg_init h fg rd_init).2.pdata = fg.pdata := congrArg (fun s => s.1) hinit
  unfold sm5703_fuelgauge_probe at e
  have h1 : (sec_hal_fg_init h fg rd_init).1 = true := rfl
  simp only [h1, Bool.not_true, Bool.false_eq_true, ↓reduceIte] at e
  split at e
  · cases e
  · next ok raw fg2 hhal =>
    obtain ⟨hraw, hf2⟩ := hal_capacity_raw_elim h _ rd_raw _ hhal
    have hraw2 : raw = fg_get_soc_value rd_raw.soc.soc * 10 := hraw
    have hpd2 : fg2.pdata = fg.pdata := (congrArg (fun s => s.1) hf2).trans hpd
    have hmax2 : fg2.capacity_max = fg.pdata.capacity_max :=
      (congrArg (fun s => s.2.2.1) hf2).trans (congrArg Pdata.capacity_max hpd)
    simp only [hraw2, Int.mul_tdiv_cancel _ (by decide : (10 : Int) ≠ 0), hpd2] at e
    split at e
    · cases e
    · next fg3 hsc =>
      cases e
      have ht := htail { fg3 with is_fuel_alerted := false }
      by_cases c : fg_get_soc_value rd_raw.soc.soc > fg.pdata.capacity_max
      · rw [if_pos c, Option.map_eq_some'] at hsc
        obtain ⟨r, hr, hr3⟩ := hsc
        refine ⟨fun hle => absurd hle (by omega), fun _ => ?_⟩
        have hw := (dynamic_scale_in_window h fg2 rd_scale r (by rw [hpd2]; exact hm) hr).2
        rw [hpd2, hr3] at hw
        obtain ⟨c2, hc1, hc2, hc3⟩ := hw
        exact ⟨c2, hc1, hc2, ht.trans hc3⟩
      · rw [if_neg c] at hsc
        cases hsc
        exact ⟨fun _ => ht.trans hmax2, fun hlt => absurd hlt (by omega)⟩

/-- C18, as stated, fails: the energy-full-design set path stores the value it
is given; from the sample initial state (`pdata.capacity_max` 950, margin 50)
it reaches a state with `capacity_max` = 1000, which is `(c * 99) / 100` for no
`c` in `[900, 1000]`. -/
theorem capacity_max_set_outside_window :
    ∃ r, sm5703_fg_set_property hdr_sample fg_sample Psp.ENERGY_FULL_DESIGN 1000
        (reads_sample 0) = some r ∧
      Reachable hdr_sample r.2 ∧ r.2.capacity_max = 1000 ∧
      ¬ ∃ c : Int, r.2.pdata.capacity_max - r.2.pdata.capacity_max_margin ≤ c ∧
        c ≤ r.2.pdata.capacity_max + r.2.pdata.capacity_max_margin ∧
        r.2.capacity_max = (c * 99).tdiv 100 := by
  refine ⟨_, rfl, Reachable.set fg_sample Psp.ENERGY_FULL_DESIGN 1000 (reads_sample 0) _
    (Reachable.init fg_sample rfl rfl) rfl, rfl, ?_⟩
  rintro ⟨c, h1, h2, h3⟩
  have h1b : (900 : Int) ≤ c := h1
  have h2b : c ≤ (1000 : Int) := h2
  have h3b : (1000 : Int) = (c * 99).tdiv 100 := h3
  rw [Int.tdiv_eq_ediv (by omega) (by decide)] at h3b
  omega

/-- C18, amended: for a margin `m ≥ 0`, every dynamic-scale recomputation
stores `capacity_max = (c * 99) / 100` for some `c` in
`[pdata.capacity_max - m, pdata.capacity_max + m]`; the energy-full-design set
path stores the value it is given; probe-time initialisation stores
`pdata.capacity_max` itself when the raw SOC does not exceed it, and otherwise
the result of a dynamic-scale recomputation. -/
theorem capacity_max_writers (h : Hdr) (fg : Fuelgauge) (rd_init : InitReads)
    (rd_raw rd : Reads) (val : Int) (hm : 0 ≤ fg.pdata.capacity_max_margin) :
    (∀ r, sec_fg_calculate_dynamic_scale h fg rd = some r →
      ∃ c, fg.pdata.capacity_max - fg.pdata.capacity_max_margin ≤ c ∧
        c ≤ fg.pdata.capacity_max + fg.pdata.capacity_max_margin ∧
        r.2.capacity_max = (c * 99).tdiv 100) ∧
    (sm5703_fg_set_property h fg Psp.ENERGY_FULL_DESIGN val rd).map
      (fun r => (r.1, r.2.capacity_max)) = some (0, val) ∧
    (∀ p, sm5703_fuelgauge_probe h fg rd_init rd_raw rd = some p →
      (fg_get_soc_value rd_raw.soc.soc ≤ fg.pdata.capacity_max →
        p.2.capacity_max = fg.pdata.capacity_max) ∧
      (fg.pdata.capacity_max < fg_get_soc_value rd_raw.soc.soc →
        ∃ c, fg.pdata.capacity_max - fg.pdata.capacity_max_margin ≤ c ∧
          c ≤ fg.pdata.capacity_max + fg.pdata.capacity_max_margin ∧
          p.2.capacity_max = (c * 99).tdiv 100)) :=
  ⟨fun r e => (dynamic_scale_in_window h fg rd r hm e).2, rfl,
    fun p e => probe_capacity_max h fg rd_init rd_raw rd p hm e⟩

theorem capacity_max_writers_witness :
    0 ≤ fg_sample.pdata.capacity_max_margin ∧
    ((∀ r, sec_fg_calculate_dynamic_scale hdr_sample fg_sample (reads_sample 0x6400) = some r →
        ∃ c, fg_sample.pdata.capacity_max - fg_sample.pdata.capacity_max_margin ≤ c ∧
          c ≤ fg_sample.pdata.capacity_max + fg_sample.pdata.capacity_max_margin ∧
          r.2.capacity_max = (c * 99).tdiv 100) ∧
      (sm5703_fg_set_property hdr_sample fg_sample Psp.ENERGY_FULL_DESIGN 1000
          (reads_sample 0x6400)).map (fun r => (r.1, r.2.capacity_max)) = some (0, 1000) ∧
      (∀ p, sm5703_fuelgauge_probe hdr_sample fg_sample (reads_sample 0).init
            (reads_sample 0x3200) (reads_sample 0x6400) = some p →
        (fg_get_soc_value (reads_sample 0x3200).soc.soc ≤ fg_sample.pdata.capacity_max →
          p.2.capacity_max = fg_sample.pdata.capacity_max) ∧
        (fg_sample.pdata.capacity_max < fg_get_soc_value (reads_sample 0x3200).soc.soc →
          ∃ c, fg_sample.pdata.capacity_max - fg_sample.pdata.capacity_max_margin ≤ c ∧
            c ≤ fg_sample.pdata.capacity_max + fg_sample.pdata.capacity_max_margin ∧
            p.2.capacity_max = (c * 99).tdiv 100))) ∧
    (sec_fg_calculate_dynamic_scale hdr_sample fg_sample (reads_sample 0x6400)).map
      (fun r => r.2.capacity_max) = some 990 ∧
    (sm5703_fuelgauge_probe hdr_sample fg_sample (reads_sample 0).init
        (reads_sample 0x3200) (reads_sample 0x6400)).map
      (fun p => (p.1, p.2.capacity_max, p.2.initial_update_of_soc)) = some (0, 950, true) ∧
    (sm5703_fuelgauge_probe hdr_sample fg_sample (reads_sample 0).init
        (reads_sample 0x6400) (reads_sample 0x6400)).map
      (fun p => (p.1, p.2.capacity_max, p.2.capacity_old)) = some (0, 990, 100) :=
  ⟨by decide,
    capacity_max_writers hdr_sample fg_sample (reads_sample 0).init (reads_sample 0x3200)
      (reads_sample 0x6400) 1000 (by decide),
    by decide, by decide, by decide⟩

/-! ## Alert monitor -/

theorem bits32_word (w : Nat) (hw : w < 65536) : bits32 (w : Int) = w := by
  unfold bits32
  have e : (w : Int) % 4294967296 = (w : Int) := by omega
  rw [e]
  exact Int.toNat_ofNat w

theorem irq_thread_scheduled (h : Hdr) (fg : Fuelgauge) (hsoc : 0 ≤ fg.pdata.fuel_alert_soc)
    (hr : fg.pdata.repeated_fuelalert = true ∨ fg.is_fuel_alerted = true) :
    sec_fg_irq_thread h fg
      = { schedule_delayed_work (wake_unlock fg) with is_fuel_alerted := false } := by
  unfold sec_fg_irq_thread
  rw [if_pos (by omega : fg.pdata.fuel_alert_soc ≥ 0)]
  simp only [sec_hal_fg_is_fuelalerted]
  rcases hr with hr | hr
  · rw [hr]
    by_cases ha : false = fg.is_fuel_alerted
    · rw [if_pos ha]; rfl
    · rw [if_neg ha]; rfl
  · rw [hr]
    rfl

theorem irq_thread_suppressed (h : Hdr) (fg : Fuelgauge) (hsoc : 0 ≤ fg.pdata.fuel_alert_soc)
    (hr : fg.pdata.repeated_fuelalert = false) (ha : fg.is_fuel_alerted = false) :
    sec_fg_irq_thread h fg = fg := by
  unfold sec_fg_irq_thread
  rw [if_pos (by omega : fg.pdata.fuel_alert_soc ≥ 0)]
  simp only [sec_hal_fg_is_fuelalerted]
  rw [hr, ha]
  rfl

/-- C19, as stated, fails: with `repeated_fuelalert` clear and `is_fuel_alerted`
clear (the state after probe), `sec_fg_irq_thread` returns before scheduling
the work, so a notification with both the low-SOC and the low-voltage bit set
in the interrupt-flag register (word `0x0009`) leaves `soc_alert_flag` and
`volt_alert_flag` false. -/
theorem fuel_alert_not_latched_when_suppressed :
    0 ≤ fg_sample.pdata.fuel_alert_soc ∧
    fg_sample.pdata.repeated_fuelalert = false ∧ fg_sample.is_fuel_alerted = false ∧
    0x0009 &&& hdr_sample.ENABLE_L_SOC_INT ≠ 0 ∧ 0x0009 &&& hdr_sample.ENABLE_L_VOL_INT ≠ 0 ∧
    (fuel_alert_notification hdr_sample fg_sample 0x0009).info.soc_alert_flag = false ∧
    (fuel_alert_notification hdr_sample fg_sample 0x0009).info.volt_alert_flag = false ∧
    (fuel_alert_notification hdr_sample fg_sample 0x0009).trace = fg_sample.trace := by
  decide

/-- C19, amended: on an interrupt notification delivered while
`fuel_alert_soc >= 0`, when `repeated_fuelalert` is set or `is_fuel_alerted` is
set, `sec_fg_irq_thread` schedules the deferred work and each asserted bit of
the interrupt-flag word is latched: the low-SOC bit sets `soc_alert_flag` and
the low-voltage bit sets `volt_alert_flag`; when both `repeated_fuelalert` and
`is_fuel_alerted` are clear, the thread returns before scheduling the work and
the notification changes nothing. -/
theorem fuel_alert_latched_when_scheduled (h : Hdr) (fg : Fuelgauge) (w : Nat)
    (hw : w < 65536) (hsoc : 0 ≤ fg.pdata.fuel_alert_soc) :
    ((fg.pdata.repeated_fuelalert = true ∨ fg.is_fuel_alerted = true) →
      Ev.schedule_work ∈ (sec_fg_irq_thread h fg).trace.drop fg.trace.length ∧
      (w &&& h.ENABLE_L_SOC_INT ≠ 0 →
        (fuel_alert_notification h fg (w : Int)).info.soc_alert_flag = true) ∧
      (w &&& h.ENABLE_L_VOL_INT ≠ 0 →
        (fuel_alert_notification h fg (w : Int)).info.volt_alert_flag = true)) ∧
    (fg.pdata.repeated_fuelalert = false → fg.is_fuel_alerted = false →
      fuel_alert_notification h fg (w : Int) = fg) := by
  constructor
  · intro hr
    have e := irq_thread_scheduled h fg hsoc hr
    have hmem : Ev.schedule_work ∈ (sec_fg_irq_thread h fg).trace.drop fg.trace.length := by
      rw [e]
      show Ev.schedule_work ∈ List.drop fg.trace.length
        ((fg.trace ++ [Ev.wake_unlock]) ++ [Ev.schedule_work])
      rw [List.append_assoc, List.drop_left]
      simp
    refine ⟨hmem, ?_, ?_⟩
    · intro hb
      unfold fuel_alert_notification
      simp only []
      rw [if_pos hmem]
      unfold sec_fg_isr_work sec_hal_fg_fuelalert_process
      simp only [bits32_word w hw]
      rw [if_pos hb]
      split <;> rfl
    · intro hb
      unfold fuel_alert_notification
      simp only []
      rw [if_pos hmem]
      unfold sec_fg_isr_work sec_hal_fg_fuelalert_process
      simp only [bits32_word w hw]
      rw [if_pos hb]
  · intro hr ha
    unfold fuel_alert_notification
    simp only []
    rw [irq_thread_suppressed h fg hsoc hr ha]
    simp

theorem fuel_alert_latched_when_scheduled_witness :
    (0x0009 : Nat) < 65536 ∧
    0 ≤ fg_repeat.pdata.fuel_alert_soc ∧
    (fg_repeat.pdata.repeated_fuelalert = true ∨
      fg_repeat.is_fuel_alerted = true) ∧
    0x0009 &&& hdr_sample.ENABLE_L_SOC_INT ≠ 0 ∧
    (fuel_alert_notification hdr_sample fg_repeat
      ((0x0009 : Nat) : Int)).info.soc_alert_flag = true ∧
    (fuel_alert_notification hdr_sample fg_repeat
      ((0x0009 : Nat) : Int)).info.volt_alert_flag = true :=
  ⟨by decide, by decide, Or.inl rfl, by decide,
    ((fuel_alert_latched_when_scheduled hdr_sample fg_repeat
      0x0009 (by decide) (by decide)).1 (Or.inl rfl)).2.1 (by decide),
    by decide⟩

/-! ## Chip state machine: abnormal-state recovery -/

/-- Every trace extends itself by no event; the lemmas below show that each
bus-level function only appends events to the trace. -/
theorem trace_extends_refl (a : Fuelgauge) : ∃ e, a.trace = a.trace ++ e :=
  ⟨[], (List.append_nil _).symm⟩

theorem trace_extends_trans {a b c : Fuelgauge} (h1 : ∃ e, b.trace = a.trace ++ e)
    (h2 : ∃ e, c.trace = b.trace ++ e) : ∃ e, c.trace = a.trace ++ e := by
  obtain ⟨e1, h1⟩ := h1
  obtain ⟨e2, h2⟩ := h2
  exact ⟨e1 ++ e2, by rw [h2, h1, List.append_assoc]⟩

theorem trace_extends_write (a b : Fuelgauge) (r : Nat) (d : Int)
    (h1 : ∃ e, b.trace = a.trace ++ e) :
    ∃ e, (sm5703_fg_i2c_write_word b r d).trace = a.trace ++ e :=
  trace_extends_trans h1 ⟨_, rfl⟩

theorem trace_extends_foldl {α : Type} (f : Fuelgauge → α → Fuelgauge)
    (hf : ∀ fg x, ∃ e, (f fg x).trace = fg.trace ++ e) (l : List α) (a b : Fuelgauge)
    (h1 : ∃ e, b.trace = a.trace ++ e) : ∃ e, (l.foldl f b).trace = a.trace ++ e := by
  induction l generalizing b with
  | nil => exact h1
  | cons x l ih => exact ih _ (trace_extends_trans h1 (hf b x))

theorem trace_extends_table_row (h : Hdr) (fg : Fuelgauge) (i : Nat) :
    ∃ e, (sm5703_fg_reg_init_table_row h fg i).trace = fg.trace ++ e := by
  unfold sm5703_fg_reg_init_table_row
  simp only []
  exact trace_extends_foldl _ (fun g x => ⟨_, rfl⟩) _ fg fg (trace_extends_refl fg)

theorem foldl_info {α : Type} (f : Fuelgauge → α → Fuelgauge)
    (hf : ∀ fg x, (f fg x).info = fg.info) (l : List α) (fg : Fuelgauge) :
    (l.foldl f fg).info = fg.info := by
  induction l generalizing fg with
  | nil => rfl
  | cons x l ih => rw [List.foldl_cons, ih, hf]

theorem table_row_info (h : Hdr) (fg : Fuelgauge) (i : Nat) :
    (sm5703_fg_reg_init_table_row h fg i).info = fg.info := by
  unfold sm5703_fg_reg_init_table_row
  simp only []
  apply foldl_info
  intro g x
  rfl

theorem or_mod_and_self (x m : Nat) (hm : m < 65536) : ((x ||| m) % 65536) &&& m = m := by
  apply Nat.eq_of_testBit_eq
  intro i
  have h16 : (65536 : Nat) = 2 ^ 16 := by decide
  rw [Nat.testBit_and, h16, Nat.testBit_mod_two_pow, Nat.testBit_or]
  cases hb : m.testBit i
  · simp
  · have hge := Nat.testBit_implies_ge hb
    have hlt : i < 16 := by
      by_contra hc
      have : 2 ^ 16 ≤ 2 ^ i := Nat.pow_le_pow_right (by decide) (by omega)
      omega
    simp [hlt]

theorem info_write (a b : Fuelgauge) (r : Nat) (d : Int) (h1 : b.info = a.info) :
    (sm5703_fg_i2c_write_word b r d).info = a.info := h1

theorem info_foldl {α : Type} (f : Fuelgauge → α → Fuelgauge)
    (hf : ∀ fg x, (f fg x).info = fg.info) (l : List α) (a b : Fuelgauge)
    (h1 : b.info = a.info) : (l.foldl f b).info = a.info :=
  (foldl_info f hf l b).trans h1

theorem reg_init_manual_trace (h : Hdr) (fg : Fuelgauge) (hbit : h.ENABLE_MANUAL_OCV < 65536) :
    ∃ pre v lockv,
      (sm5703_fg_reg_init h fg true).2.trace =
        fg.trace ++ (pre ++
          [Ev.write (h.SM5703_REG_CNTL % 256) v,
            Ev.write (h.SM5703_REG_PARAM_CTRL % 256) lockv,
            Ev.write (h.SM5703_REG_IOCV_MAN % 256)
              ((fg.info.batt_ocv * 256).tdiv 125 % 65536).toNat]) ∧
      v &&& h.ENABLE_MANUAL_OCV = h.ENABLE_MANUAL_OCV := by
  have key : ∀ P : Fuelgauge, (∃ e, P.trace = fg.trace ++ e) → P.info = fg.info →
      ∃ pre v lockv,
        (sm5703_fg_i2c_write_word
          (sm5703_fg_i2c_write_word
            (sm5703_fg_i2c_write_word P h.SM5703_REG_CNTL
              ((h.ENABLE_MIX_MODE ||| h.ENABLE_TEMP_MEASURE |||
                  (bits32 (P.info.enable_topoff_soc * 8192) &&& h.ENABLE_TOPOFF_SOC) |||
                  h.ENABLE_MANUAL_OCV : Nat) : Int))
            h.SM5703_REG_PARAM_CTRL
            ((h.SM5703_FG_PARAM_LOCK_CODE ||| h.SM5703_FG_TABLE_LEN : Nat) : Int))
          h.SM5703_REG_IOCV_MAN ((P.info.batt_ocv * 256).tdiv 125)).trace =
          fg.trace ++ (pre ++
            [Ev.write (h.SM5703_REG_CNTL % 256) v,
              Ev.write (h.SM5703_REG_PARAM_CTRL % 256) lockv,
              Ev.write (h.SM5703_REG_IOCV_MAN % 256)
                ((fg.info.batt_ocv * 256).tdiv 125 % 65536).toNat]) ∧
        v &&& h.ENABLE_MANUAL_OCV = h.ENABLE_MANUAL_OCV := by
    intro P hP hinfo
    obtain ⟨e, he⟩ := hP
    refine ⟨e,
      (((h.ENABLE_MIX_MODE ||| h.ENABLE_TEMP_MEASURE |||
          (bits32 (fg.info.enable_topoff_soc * 8192) &&& h.ENABLE_TOPOFF_SOC) |||
          h.ENABLE_MANUAL_OCV : Nat) : Int) % 65536).toNat,
      (((h.SM5703_FG_PARAM_LOCK_CODE ||| h.SM5703_FG_TABLE_LEN : Nat) : Int) % 65536).toNat,
      ?_, ?_⟩
    · simp only [sm5703_fg_i2c_write_word, he, hinfo, List.append_assoc, List.cons_append,
        List.nil_append]
    · have e1 : ∀ x : Nat, (((x : Nat) : Int) % 65536).toNat = x % 65536 := by
        intro x
        have : ((x : Nat) : Int) % 65536 = ((x % 65536 : Nat) : Int) := by omega
        rw [this]
        exact Int.toNat_ofNat _
      rw [e1]
      exact or_mod_and_self _ _ hbit
  unfold sm5703_fg_reg_init
  simp only [↓reduceIte]
  refine key _ ?_ ?_
  · iterate 8 apply trace_extends_write
    apply trace_extends_foldl _ (trace_extends_table_row h)
    iterate 4 apply trace_extends_write
    apply trace_extends_foldl _ (fun g x => ⟨_, rfl⟩)
    apply trace_extends_write
    exact trace_extends_refl fg
  · iterate 8 apply info_write
    apply info_foldl _ (table_row_info h)
    iterate 4 apply info_write
    refine info_foldl _ ?_ _ _ _ ?_
    · intro g x
      rfl
    · rfl

theorem init_manual_trace (h : Hdr) (fg : Fuelgauge) (rd : InitReads)
    (hbit : h.ENABLE_MANUAL_OCV < 65536) :
    ∃ e, (sm5703_fg_init h fg true rd).2.trace = fg.trace ++ e ∧
      (0 ≤ rd.device_id → rd.op_status % 256 ≠ h.DISABLE_RE_INIT →
        ∃ pre v lockv,
          e = pre ++
            [Ev.write (h.SM5703_REG_CNTL % 256) v,
              Ev.write (h.SM5703_REG_PARAM_CTRL % 256) lockv,
              Ev.write (h.SM5703_REG_IOCV_MAN % 256)
                ((fg.info.batt_ocv * 256).tdiv 125 % 65536).toNat] ∧
          v &&& h.ENABLE_MANUAL_OCV = h.ENABLE_MANUAL_OCV) := by
  unfold sm5703_fg_init
  simp only []
  by_cases hd : rd.device_id < 0
  · rw [if_pos hd]
    exact ⟨[], (List.append_nil _).symm, fun h1 => absurd hd (by omega)⟩
  · rw [if_neg hd]
    by_cases hn : rd.op_status % 256 = h.DISABLE_RE_INIT
    · have hc : sm5703_fg_check_reg_init_need h rd.op_status = false := by
        unfold sm5703_fg_check_reg_init_need
        rw [if_pos hn]
      simp only [hc, Bool.false_eq_true, ↓reduceIte]
      exact ⟨_, rfl, fun _ h2 => absurd hn h2⟩
    · have hc : sm5703_fg_check_reg_init_need h rd.op_status = true := by
        unfold sm5703_fg_check_reg_init_need
        rw [if_neg hn]
      simp only [hc, ↓reduceIte]
      obtain ⟨pre, v, lockv, ht, hv⟩ := reg_init_manual_trace h
        { fg with info := { fg.info with is_FG_initialised := 0 } } hbit
      exact ⟨_, ht, fun _ _ => ⟨pre, v, lockv, rfl, hv⟩⟩

theorem ite_none_some {α : Type} {c : Prop} [Decidable c] {x y : α}
    (e : (if c then none else some x) = some y) : x = y := by
  by_cases hc : c
  · rw [if_pos hc] at e; cases e
  · rw [if_neg hc] at e; exact Option.some.inj e

theorem fg_get_soc_trace_reset (h : Hdr) (fg : Fuelgauge) (rd : SocReads)
    (h0 : fg.info.temp_offset ≠ 0)
    (c1 : rd.op_status % 256 ≠ h.DISABLE_RE_INIT ∧ fg.info.is_FG_initialised = 1)
    (c2 : rd.cntl = 0x2008) :
    ∃ soc fg2 cal, fg_get_soc h fg rd = some (soc, fg2) ∧
      fg2.trace =
        (sm5703_fg_init h (msleep (sm5703_fg_i2c_write_word fg 0x90 0x0008) 200) true
          rd.reinit).2.trace ++ [Ev.write (h.SM5703_REG_CURR_CAL % 256) cal] := by
  obtain ⟨fg2, e, -⟩ := fg_get_soc_some h fg rd h0
  have e2 := e
  unfold fg_get_soc at e2
  simp only [] at e2
  rw [if_pos c1, if_pos c2] at e2
  have hx := congrArg (fun p => p.2.trace) (ite_none_some e2)
  exact ⟨_, fg2, _, e, hx.symm⟩

theorem fg_get_soc_trace_plain (h : Hdr) (fg : Fuelgauge) (rd : SocReads)
    (h0 : fg.info.temp_offset ≠ 0)
    (c : ¬ ((rd.op_status % 256 ≠ h.DISABLE_RE_INIT ∧ fg.info.is_FG_initialised = 1) ∧
      rd.cntl = 0x2008)) :
    ∃ soc fg2 cal, fg_get_soc h fg rd = some (soc, fg2) ∧
      fg2.trace = fg.trace ++ [Ev.write (h.SM5703_REG_CURR_CAL % 256) cal] := by
  obtain ⟨fg2, e, -⟩ := fg_get_soc_some h fg rd h0
  have e2 := e
  unfold fg_get_soc at e2
  simp only [] at e2
  by_cases c1 : rd.op_status % 256 ≠ h.DISABLE_RE_INIT ∧ fg.info.is_FG_initialised = 1
  · have c2 : ¬ rd.cntl = 0x2008 := fun hc => c ⟨c1, hc⟩
    rw [if_pos c1, if_neg c2] at e2
    have hx := congrArg (fun p => p.2.trace) (ite_none_some e2)
    exact ⟨_, fg2, _, e, hx.symm⟩
  · rw [if_neg c1] at e2
    have hx := congrArg (fun p => p.2.trace) (ite_none_some e2)
    exact ⟨_, fg2, _, e, hx.symm⟩

/-- C20: in `fg_get_soc` (with a non-zero divisor `temp_offset`, so that the
read returns) the events added to the trace start with the soft reset (write of
`0x0008` to register `0x90`), the 200 ms sleep and the events of
`sm5703_fg_init` run with the manual-OCV flag set, if and only if the low byte
of the operation status is not the "re-init disabled" code, `is_FG_initialised`
is 1 and the control register reads `0x2008`; otherwise the only event is the
write of the current-calibration register.  When that re-run performs the
register initialisation (device-ID read successful, operation status not
"re-init disabled"), its last three writes are the control register with the
manual-OCV bit set, the parameter lock, and the manual-OCV register with
`(batt_ocv * 256) / 125` as a 16-bit word, `batt_ocv` being the stored OCV at
entry; for a stored OCV in `[0, 7996]` the 16-bit word is the quotient
itself. -/
theorem soc_read_abnormal_reset (h : Hdr) (fg : Fuelgauge) (rd : SocReads)
    (h0 : fg.info.temp_offset ≠ 0) (hbit : h.ENABLE_MANUAL_OCV < 65536) :
    ∃ soc fg2 evs, fg_get_soc h fg rd = some (soc, fg2) ∧ fg2.trace = fg.trace ++ evs ∧
      (Ev.msleep 200 ∈ evs ↔
        (rd.op_status % 256 ≠ h.DISABLE_RE_INIT ∧ fg.info.is_FG_initialised = 1 ∧
          rd.cntl = 0x2008)) ∧
      ((rd.op_status % 256 ≠ h.DISABLE_RE_INIT ∧ fg.info.is_FG_initialised = 1 ∧
          rd.cntl = 0x2008) →
        ∃ rest cal,
          evs = Ev.write 0x90 0x0008 :: Ev.msleep 200 ::
            (rest ++ [Ev.write (h.SM5703_REG_CURR_CAL % 256) cal]) ∧
          (sm5703_fg_init h (msleep (sm5703_fg_i2c_write_word fg 0x90 0x0008) 200) true
              rd.reinit).2.trace
            = fg.trace ++ (Ev.write 0x90 0x0008 :: Ev.msleep 200 :: rest) ∧
          (0 ≤ rd.reinit.device_id → rd.reinit.op_status % 256 ≠ h.DISABLE_RE_INIT →
            ∃ pre v lockv,
              rest = pre ++
                [Ev.write (h.SM5703_REG_CNTL % 256) v,
                  Ev.write (h.SM5703_REG_PARAM_CTRL % 256) lockv,
                  Ev.write (h.SM5703_REG_IOCV_MAN % 256)
                    ((fg.info.batt_ocv * 256).tdiv 125 % 65536).toNat] ∧
              v &&& h.ENABLE_MANUAL_OCV = h.ENABLE_MANUAL_OCV)) ∧
      (¬ (rd.op_status % 256 ≠ h.DISABLE_RE_INIT ∧ fg.info.is_FG_initialised = 1 ∧
          rd.cntl = 0x2008) →
        ∃ cal, evs = [Ev.write (h.SM5703_REG_CURR_CAL % 256) cal]) ∧
      (0 ≤ fg.info.batt_ocv → fg.info.batt_ocv ≤ 7996 →
        (fg.info.batt_ocv * 256).tdiv 125 % 65536 = (fg.info.batt_ocv * 256).tdiv 125) := by
  have hocv : 0 ≤ fg.info.batt_ocv → fg.info.batt_ocv ≤ 7996 →
      (fg.info.batt_ocv * 256).tdiv 125 % 65536 = (fg.info.batt_ocv * 256).tdiv 125 := by
    intro h1 h2
    rw [Int.tdiv_eq_ediv (by omega) (by decide)]
    omega
  by_cases c : rd.op_status % 256 ≠ h.DISABLE_RE_INIT ∧ fg.info.is_FG_initialised = 1 ∧
      rd.cntl = 0x2008
  · obtain ⟨soc, fg2, cal, e, ht⟩ := fg_get_soc_trace_reset h fg rd h0 ⟨c.1, c.2.1⟩ c.2.2
    obtain ⟨ei, hi, hreg⟩ := init_manual_trace h
      (msleep (sm5703_fg_i2c_write_word fg 0x90 0x0008) 200) rd.reinit hbit
    have hi2 : (sm5703_fg_init h (msleep (sm5703_fg_i2c_write_word fg 0x90 0x0008) 200) true
        rd.reinit).2.trace = fg.trace ++ (Ev.write 0x90 0x0008 :: Ev.msleep 200 :: ei) := by
      rw [hi]
      show ((fg.trace ++ [Ev.write (0x90 % 256) ((0x0008 : Int) % 65536).toNat])
        ++ [Ev.msleep 200]) ++ ei = _
      simp only [List.append_assoc, List.cons_append, List.nil_append]
      rfl
    refine ⟨soc, fg2,
      Ev.write 0x90 0x0008 :: Ev.msleep 200 :: (ei ++ [Ev.write (h.SM5703_REG_CURR_CAL % 256) cal]),
      e, ?_, ?_, ?_, ?_, hocv⟩
    · rw [ht, hi2]
      simp only [List.append_assoc, List.cons_append]
    · exact ⟨fun _ => c, fun _ => by simp⟩
    · intro _
      exact ⟨ei, cal, rfl, hi2, hreg⟩
    · intro hc
      exact absurd c hc
  · obtain ⟨soc, fg2, cal, e, ht⟩ :=
      fg_get_soc_trace_plain h fg rd h0 (fun hc => c ⟨hc.1.1, hc.1.2, hc.2⟩)
    refine ⟨soc, fg2, [Ev.write (h.SM5703_REG_CURR_CAL % 256) cal], e, ht, ?_, ?_, ?_, hocv⟩
    · constructor
      · intro hm
        simp at hm
      · intro hc
        exact absurd hc c
    · intro hc
      exact absurd hc c
    · intro _
      exact ⟨cal, rfl⟩

theorem soc_read_abnormal_reset_witness :
    fg_ocv.info.temp_offset ≠ 0 ∧ hdr_sample.ENABLE_MANUAL_OCV < 65536 ∧
    (reads_abnormal.op_status % 256 ≠ hdr_sample.DISABLE_RE_INIT ∧
      fg_ocv.info.is_FG_initialised = 1 ∧ reads_abnormal.cntl = 0x2008) ∧
    (∃ soc fg2 evs, fg_get_soc hdr_sample fg_ocv reads_abnormal = some (soc, fg2) ∧
      fg2.trace = fg_ocv.trace ++ evs ∧ Ev.msleep 200 ∈ evs) ∧
    (fg_get_soc hdr_sample fg_ocv reads_abnormal).map
      (fun r => (r.1, r.2.trace.take 2, r.2.trace.drop (r.2.trace.length - 4)))
      = some (500, [Ev.write 0x90 0x0008, Ev.msleep 200],
          [Ev.write 0x01 0xC400, Ev.write 0x13 0x000F, Ev.write 0x0E 8192,
            Ev.write 0x51 0x8080]) ∧
    (fg_get_soc hdr_sample fg_ocv (reads_sample 0x3200).soc).map (fun r => r.2.trace)
      = some [Ev.write 0x51 0x8080] := by
  refine ⟨by decide, by decide, by decide, ?_, by decide, by decide⟩
  obtain ⟨soc, fg2, evs, e, ht, hiff, -⟩ :=
    soc_read_abnormal_reset hdr_sample fg_ocv reads_abnormal (by decide) (by decide)
  exact ⟨soc, fg2, evs, e, ht, hiff.2 (by decide)⟩

/-! ## Current queries -/

/-- C22: a `CURRENT_NOW` query falls through into the `CURRENT_AVG` case: for
every pair of successive current register words `rd.w1`, `rd.w2` it performs
two current reads, the smoothed average is updated twice, the query returns
code 0 with that smoothed average, and the whole result (code, value, state)
equals that of a current read of `rd.w1` followed by a `CURRENT_AVG` query
reading `rd.w2`.  The value is not the instantaneous current: from a zero
average, two reads of 1000 mA return 960. -/
theorem current_now_falls_through (h : Hdr) (fg : Fuelgauge) (val : Int) (rd : Reads) :
    (∃ fg2, sm5703_fg_get_property h fg Psp.CURRENT_NOW val rd
        = some (0, smoothing_update
            (smoothing_update fg.info.batt_avgcurrent (fg_get_curr fg rd.w1).1)
            (fg_get_curr fg rd.w2).1, fg2) ∧
      fg2.info.batt_current = (fg_get_curr fg rd.w2).1 ∧
      fg2.info.batt_avgcurrent = smoothing_update
        (smoothing_update fg.info.batt_avgcurrent (fg_get_curr fg rd.w1).1)
        (fg_get_curr fg rd.w2).1) ∧
    sm5703_fg_get_property h fg Psp.CURRENT_NOW val rd
      = sm5703_fg_get_property h (fg_get_curr fg rd.w1).2 Psp.CURRENT_AVG val
          { rd with w1 := rd.w2 } ∧
    (fg_sample.info.batt_avgcurrent = 0 ∧
      (fg_get_curr fg_sample 0x0100).1 = 1000 ∧
      (sm5703_fg_get_property hdr_sample fg_sample Psp.CURRENT_NOW 0
        { reads_sample 0 with w1 := 0x0100, w2 := 0x0100 }).map (fun r => (r.1, r.2.1))
        = some (0, 960)) := by
  refine ⟨⟨_, rfl, rfl, rfl⟩, rfl, by decide, by decide, by decide⟩

/-! ## Round trip of the fixed-point decoders -/

theorem encode_1000_fields (v : Nat) (hv : v < 8000) :
    encode 1000 v / 256 % 8 = v / 1000 ∧ encode 1000 v % 256 = v % 1000 * 256 / 1000 := by
  unfold encode
  have hf : v % 1000 * 256 / 1000 < 256 := by omega
  have hq : v / 1000 < 8 := by omega
  have hd : (v / 1000 * 256 + v % 1000 * 256 / 1000) / 256 = v / 1000 := by omega
  refine ⟨?_, by omega⟩
  rw [hd]
  omega

theorem encode_10_fields (v : Nat) :
    encode 10 v / 256 = v / 10 ∧ encode 10 v % 256 = v % 10 * 256 / 10 := by
  unfold encode
  omega

theorem encode_10_lt (v : Nat) (hv : v < 1280) : encode 10 v < 2 ^ 15 := by
  have h1 : (2 : Nat) ^ 15 = 32768 := by decide
  rw [h1]
  unfold encode
  omega

theorem frac_1000_lt (b1 b2 : Nat) (hb : b1 < b2) : b1 * 1000 / 256 < b2 * 1000 / 256 := by
  omega

theorem volt_word_lt (w1 w2 : Nat) (h1 : w1 < w2) (h2 : w2 < 2048) :
    w1 / 256 % 8 * 1000 + w1 % 256 * 1000 / 256 < w2 / 256 % 8 * 1000 + w2 % 256 * 1000 / 256 := by
  have ha1 : w1 / 256 % 8 = w1 / 256 := by omega
  have ha2 : w2 / 256 % 8 = w2 / 256 := by omega
  rw [ha1, ha2]
  have hb1 : w1 % 256 * 1000 / 256 ≤ 996 := by omega
  rcases Nat.lt_or_ge (w1 / 256) (w2 / 256) with hlt | hge
  · omega
  · have heq : w1 / 256 = w2 / 256 := by omega
    have hbb : w1 % 256 < w2 % 256 := by omega
    have hfr := frac_1000_lt _ _ hbb
    omega

/-- C23: with `encode U v` the word whose integer field is `v div U` and whose
low byte is `floor((v mod U) * 256 / U)`, the decoders undo the encoder within
one fraction step: for `v < 8000` mV, `fg_get_vbat` and `fg_get_ocv` return a
value `d` with `0 <= v - d <= 4`; for `v < 1280` tenths of a degree,
`fg_get_temp` returns `d` with `0 <= v - d <= 1`; for `v < 2560` tenths of a
percent, `fg_get_soc` (with a non-zero divisor `temp_offset`, so that it
returns) returns `d` with `0 <= v - d <= 1`.  The voltage decoders are strictly
increasing on the words `0..2047`, hence injective there. -/
theorem decoders_round_trip (h : Hdr) (fg : Fuelgauge) (rd : SocReads) (v : Nat) :
    (v < 8000 →
      (0 ≤ (v : Int) - (fg_get_vbat fg ((encode 1000 v : Nat) : Int)).1 ∧
        (v : Int) - (fg_get_vbat fg ((encode 1000 v : Nat) : Int)).1 ≤ 4) ∧
      (0 ≤ (v : Int) - (fg_get_ocv fg ((encode 1000 v : Nat) : Int)).1 ∧
        (v : Int) - (fg_get_ocv fg ((encode 1000 v : Nat) : Int)).1 ≤ 4)) ∧
    (v < 1280 →
      0 ≤ (v : Int) - (fg_get_temp fg ((encode 10 v : Nat) : Int)).1 ∧
        (v : Int) - (fg_get_temp fg ((encode 10 v : Nat) : Int)).1 ≤ 1) ∧
    (v < 2560 → fg.info.temp_offset ≠ 0 →
      ∃ d fg2, fg_get_soc h fg { rd with soc := ((encode 10 v : Nat) : Int) } = some (d, fg2) ∧
        0 ≤ (v : Int) - d ∧ (v : Int) - d ≤ 1) ∧
    (∀ w1 w2 : Nat, w1 < w2 → w2 < 2048 →
      (fg_get_vbat fg (w1 : Int)).1 < (fg_get_vbat fg (w2 : Int)).1 ∧
      (fg_get_ocv fg (w1 : Int)).1 < (fg_get_ocv fg (w2 : Int)).1) ∧
    (∀ w1 w2 : Nat, w1 < 2048 → w2 < 2048 →
      (fg_get_vbat fg (w1 : Int)).1 = (fg_get_vbat fg (w2 : Int)).1 → w1 = w2) := by
  refine ⟨?_, ?_, ?_, ?_, ?_⟩
  · intro hv
    obtain ⟨e1, e2⟩ := encode_1000_fields v hv
    rw [fg_get_vbat_val, fg_get_ocv_val, e1, e2]
    omega
  · intro hv
    obtain ⟨e1, e2⟩ := encode_10_fields v
    have hb : (encode 10 v).testBit 15 = false :=
      Nat.testBit_eq_false_of_lt (encode_10_lt v hv)
    have e3 : encode 10 v / 256 % 128 = v / 10 := by rw [e1]; omega
    rw [fg_get_temp_val, hb, e3, e2]
    simp only [Bool.false_eq_true, if_false]
    omega
  · intro hv h0
    obtain ⟨e1, e2⟩ := encode_10_fields v
    have e3 : encode 10 v / 256 % 256 = v / 10 := by rw [e1]; omega
    obtain ⟨fg2, e, -⟩ := fg_get_soc_some h fg { rd with soc := ((encode 10 v : Nat) : Int) } h0
    refine ⟨_, fg2, e, ?_⟩
    show 0 ≤ (v : Int) - fg_get_soc_value ((encode 10 v : Nat) : Int) ∧
      (v : Int) - fg_get_soc_value ((encode 10 v : Nat) : Int) ≤ 1
    rw [fg_get_soc_value_word, e3, e2]
    omega
  · intro w1 w2 h1 h2
    rw [fg_get_vbat_val, fg_get_vbat_val, fg_get_ocv_val, fg_get_ocv_val]
    have := volt_word_lt w1 w2 h1 h2
    omega
  · intro w1 w2 h1 h2 e
    rw [fg_get_vbat_val, fg_get_vbat_val] at e
    rcases Nat.lt_trichotomy w1 w2 with hlt | heq | hgt
    · have := volt_word_lt w1 w2 hlt h2
      omega
    · exact heq
    · have := volt_word_lt w2 w1 hgt h1
      omega

theorem decoders_round_trip_witness :
    ((1007 : Nat) < 8000 ∧ (1007 : Nat) < 1280 ∧ (1007 : Nat) < 2560 ∧
      fg_sample.info.temp_offset ≠ 0 ∧ (255 : Nat) < 256 ∧ (256 : Nat) < 2048) ∧
    (encode 1000 1007 = 0x0101 ∧ (fg_get_vbat fg_sample 0x0101).1 = 1003 ∧
      encode 10 1007 = 0x64B3 ∧ (fg_get_temp fg_sample 0x64B3).1 = 1006) ∧
    ((0 ≤ ((1007 : Nat) : Int) - (fg_get_vbat fg_sample ((encode 1000 1007 : Nat) : Int)).1 ∧
        ((1007 : Nat) : Int) - (fg_get_vbat fg_sample ((encode 1000 1007 : Nat) : Int)).1 ≤ 4) ∧
      (0 ≤ ((1007 : Nat) : Int) - (fg_get_ocv fg_sample ((encode 1000 1007 : Nat) : Int)).1 ∧
        ((1007 : Nat) : Int) - (fg_get_ocv fg_sample ((encode 1000 1007 : Nat) : Int)).1 ≤ 4)) ∧
    (0 ≤ ((1007 : Nat) : Int) - (fg_get_temp fg_sample ((encode 10 1007 : Nat) : Int)).1 ∧
      ((1007 : Nat) : Int) - (fg_get_temp fg_sample ((encode 10 1007 : Nat) : Int)).1 ≤ 1) ∧
    (∃ d fg2, fg_get_soc hdr_sample fg_sample
        { (reads_sample 0).soc with soc := ((encode 10 1007 : Nat) : Int) } = some (d, fg2) ∧
      0 ≤ ((1007 : Nat) : Int) - d ∧ ((1007 : Nat) : Int) - d ≤ 1) ∧
    ((fg_get_vbat fg_sample ((255 : Nat) : Int)).1 < (fg_get_vbat fg_sample ((256 : Nat) : Int)).1 ∧
      (fg_get_ocv fg_sample ((255 : Nat) : Int)).1 < (fg_get_ocv fg_sample ((256 : Nat) : Int)).1) :=
  ⟨by decide, by decide,
    (decoders_round_trip hdr_sample fg_sample (reads_sample 0).soc 1007).1 (by decide),
    (decoders_round_trip hdr_sample fg_sample (reads_sample 0).soc 1007).2.1 (by decide),
    (decoders_round_trip hdr_sample fg_sample (reads_sample 0).soc 1007).2.2.1 (by decide)
      (by decide),
    (decoders_round_trip hdr_sample fg_sample (reads_sample 0).soc 1007).2.2.2.1 255 256
      (by decide) (by decide)⟩

/-! ## Current calibration before the SOC read -/

theorem reg_init_info (h : Hdr) (fg : Fuelgauge) (b : Bool) :
    (sm5703_fg_reg_init h fg b).2.info = fg.info := by
  unfold sm5703_fg_reg_init
  simp only []
  have hcore : ∀ g : Fuelgauge, g.info = fg.info →
      (if b = true then
        sm5703_fg_i2c_write_word g h.SM5703_REG_IOCV_MAN ((g.info.batt_ocv * 256).tdiv 125)
      else g).info = fg.info := by
    intro g hg
    split
    · exact hg
    · exact hg
  apply hcore
  iterate 10 apply info_write
  apply info_foldl _ (table_row_info h)
  iterate 4 apply info_write
  refine info_foldl _ ?_ _ _ _ rfl
  intro g x
  rfl

theorem init_calibration_state (h : Hdr) (fg : Fuelgauge) (b : Bool) (rd : InitReads) :
    calibration_state (sm5703_fg_init h fg b rd).2 = calibration_state fg := by
  unfold sm5703_fg_init
  simp only []
  split
  · rfl
  · split
    · show calibration_state (sm5703_fg_reg_init h _ b).2 = _
      unfold calibration_state
      rw [reg_init_info]
    · rfl

theorem fg_get_soc_curr_cal_congr (h : Hdr) (a b : Fuelgauge) (rd : SocReads)
    (hc : calibration_state a = calibration_state b) (hch : a.is_charging = b.is_charging) :
    fg_get_soc_curr_cal h a rd = fg_get_soc_curr_cal h b rd := by
  have e1 : a.info.curr_cal = b.info.curr_cal := congrArg (fun s => s.1) hc
  have e2 : a.info.charge_offset_cal = b.info.charge_offset_cal := congrArg (fun s => s.2.1) hc
  have e3 : a.info.temp_std = b.info.temp_std := congrArg (fun s => s.2.2.1) hc
  have e4 : a.info.temp_offset = b.info.temp_offset := congrArg (fun s => s.2.2.2.1) hc
  have e5 : a.info.temp_offset_cal = b.info.temp_offset_cal := congrArg (fun s => s.2.2.2.2) hc
  have e6 : (fg_get_temp a rd.temp).1 = (fg_get_temp b rd.temp).1 := rfl
  unfold fg_get_soc_curr_cal
  simp only [e1, e2, e3, e4, e5, e6, hch]

theorem fg_get_soc_curr_cal_eq (h : Hdr) (fg : Fuelgauge) (rd : SocReads) :
    fg_get_soc_curr_cal h fg rd =
      fg.info.curr_cal +
        (if ((rd.value_intval == h.POWER_SUPPLY_HEALTH_GOOD) || fg.is_charging) = true then
          fg.info.charge_offset_cal * 256 else 0) +
        ((fg.info.temp_std - (fg_get_temp fg rd.temp).1.tdiv 10).tdiv fg.info.temp_offset *
          fg.info.temp_offset_cal) * 256 := by
  unfold fg_get_soc_curr_cal
  simp only []
  split <;> omega

theorem fg_get_soc_curr_cal_write (h : Hdr) (fg : Fuelgauge) (rd : SocReads)
    (h0 : fg.info.temp_offset ≠ 0) :
    ∃ soc fg2 pre, fg_get_soc h fg rd = some (soc, fg2) ∧
      fg2.trace = pre ++
        [Ev.write (h.SM5703_REG_CURR_CAL % 256) (fg_get_soc_curr_cal h fg rd % 65536).toNat] := by
  obtain ⟨fg2, e, -⟩ := fg_get_soc_some h fg rd h0
  have e2 := e
  unfold fg_get_soc at e2
  simp only [] at e2
  by_cases c1 : rd.op_status % 256 ≠ h.DISABLE_RE_INIT ∧ fg.info.is_FG_initialised = 1
  · by_cases c2 : rd.cntl = 0x2008
    · rw [if_pos c1, if_pos c2] at e2
      have hx := congrArg (fun p => p.2.trace) (ite_none_some e2)
      have hx2 : fg2.trace =
          (sm5703_fg_init h (msleep (sm5703_fg_i2c_write_word fg 0x90 0x0008) 200) true
            rd.reinit).2.trace ++
          [Ev.write (h.SM5703_REG_CURR_CAL % 256)
            (fg_get_soc_curr_cal h (sm5703_fg_init h
              (msleep (sm5703_fg_i2c_write_word fg 0x90 0x0008) 200) true rd.reinit).2 rd
              % 65536).toNat] := hx.symm
      have hcal : calibration_state (sm5703_fg_init h
          (msleep (sm5703_fg_i2c_write_word fg 0x90 0x0008) 200) true rd.reinit).2
          = calibration_state fg := by
        rw [init_calibration_state]; rfl
      have hcap : capacity_state (sm5703_fg_init h
          (msleep (sm5703_fg_i2c_write_word fg 0x90 0x0008) 200) true rd.reinit).2
          = capacity_state fg := by
        rw [init_capacity_state]; rfl
      have hch : (sm5703_fg_init h
          (msleep (sm5703_fg_i2c_write_word fg 0x90 0x0008) 200) true rd.reinit).2.is_charging
          = fg.is_charging := congrArg (fun s => s.2.2.2.2.1) hcap
      rw [fg_get_soc_curr_cal_congr h _ fg rd hcal hch] at hx2
      exact ⟨_, fg2, _, e, hx2⟩
    · rw [if_pos c1, if_neg c2] at e2
      have hx := congrArg (fun p => p.2.trace) (ite_none_some e2)
      exact ⟨_, fg2, fg.trace, e, hx.symm⟩
  · rw [if_neg c1] at e2
    have hx := congrArg (fun p => p.2.trace) (ite_none_some e2)
    exact ⟨_, fg2, fg.trace, e, hx.symm⟩

/-- C21: the last bus event of `fg_get_soc`, issued before the SOC register is
read, is the write to the current-calibration register of the 16-bit word
`curr_cal + (charge_offset_cal << 8 or 0) + ((((temp_std - T / 10) /
temp_offset) * temp_offset_cal) << 8)` with C divisions and `T` the temperature
decoded in the same call, for every non-zero `temp_offset` (with a zero
`temp_offset` the call has no result).  The charge offset is added exactly when
`is_charging` is set or the local `value.intval`, which `fg_get_soc` never
assigns, equals `POWER_SUPPLY_HEALTH_GOOD`: no adapter state is queried.  In
the same driver state, not charging, with the same register contents, the word
written is `0x8280` when that stack slot holds `POWER_SUPPLY_HEALTH_GOOD` and
`0x8080` when it holds 0. -/
theorem soc_curr_cal_word (h : Hdr) (fg : Fuelgauge) (rd : SocReads) :
    (fg_get_soc h fg rd).map (fun r => r.2.trace.getLast?) =
      (if fg.info.temp_offset = 0 then none
      else some (some (Ev.write (h.SM5703_REG_CURR_CAL % 256)
        ((fg.info.curr_cal +
          (if ((rd.value_intval == h.POWER_SUPPLY_HEALTH_GOOD) || fg.is_charging) = true then
            fg.info.charge_offset_cal * 256 else 0) +
          ((fg.info.temp_std - (fg_get_temp fg rd.temp).1.tdiv 10).tdiv fg.info.temp_offset *
            fg.info.temp_offset_cal) * 256) % 65536).toNat))) ∧
    fg_charge.is_charging = false ∧ fg_charge.info.charge_offset_cal = 2 ∧
    (fg_get_soc hdr_sample fg_charge
        { (reads_sample 0x3200).soc with
          value_intval := hdr_sample.POWER_SUPPLY_HEALTH_GOOD }).map (fun r => r.2.trace)
      = some [Ev.write 0x51 0x8280] ∧
    (fg_get_soc hdr_sample fg_charge
        { (reads_sample 0x3200).soc with value_intval := 0 }).map (fun r => r.2.trace)
      = some [Ev.write 0x51 0x8080] := by
  refine ⟨?_, by decide, by decide, by decide, by decide⟩
  by_cases h0 : fg.info.temp_offset = 0
  · rw [fg_get_soc_none h fg rd h0, if_pos h0]
    rfl
  · obtain ⟨soc, fg2, pre, e, ht⟩ := fg_get_soc_curr_cal_write h fg rd h0
    rw [e, if_neg h0, Option.map_some', ht, fg_get_soc_curr_cal_eq]
    simp

end SM5703
